import Mathlib

/-!
# Verification of the birdnet-pi2go migration pipeline

Shallow embedding of the pipeline code (`dbops.go`, `fileops.go`, `main.go`)
of the birdnet-pi2go repository, together with theorems settling the frozen
claims about it.

Modelling conventions:
* Go strings are Lean `String`s; byte-level operations are modelled on the
  character list (all data of interest is ASCII, where Go's byte semantics
  and Lean's character semantics coincide).
* Go `float64` fields (confidence, coordinates, …) are modelled as exact
  rationals `ℚ`; `int(x)` conversion is truncation toward zero.
* Go's `time.Parse` is modelled for exactly the three layouts the program
  uses (`"2006-01-02T15:04:05"`, `time.RFC3339`, `"2006-01-02"`), following
  the behaviour of Go's parser: fixed-width numeric fields except the hour
  of layout `15` (1 or 2 digits), literal separators, an optional fractional
  second after the seconds field, and range checks (month 1–12, day bounded
  by the month length with leap years, hour ≤ 23, minute ≤ 59, second ≤ 59).
* The filesystem is a partial map from path strings to byte lists, plus
  fault sets that let individual write/remove calls fail, mirroring the
  `FileSystem` interface of `fileops.go` and its mock in the tests.
-/

namespace Pi2Go

/-! ## Characters and decimal digits (Go byte-level helpers) -/

/-- Go's `isDigit` on ASCII bytes. -/
def isDigitC (c : Char) : Bool := 48 ≤ c.toNat && c.toNat ≤ 57

/-- Numeric value of an ASCII digit character. -/
def digitVal (c : Char) : Nat := c.toNat - 48

/-- The ASCII digit character for a value `d ≤ 9` (Go computes `'0' + d`). -/
def digitChar (d : Nat) : Char :=
  match d with
  | 0 => '0' | 1 => '1' | 2 => '2' | 3 => '3' | 4 => '4'
  | 5 => '5' | 6 => '6' | 7 => '7' | 8 => '8' | _ => '9'

/-- Decimal digits of a natural number by repeated division, fuelled so the
recursion is structural; `fuel > n` always suffices. -/
def natToDigitsAux : Nat → Nat → List Char
  | 0, _ => []
  | fuel + 1, n =>
    if n < 10 then [digitChar n]
    else natToDigitsAux fuel (n / 10) ++ [digitChar (n % 10)]

/-- Decimal digit string of a natural number, most significant digit first;
mirrors Go's `appendInt` digit loop. -/
def natToDigits (n : Nat) : List Char := natToDigitsAux (n + 1) n

/-- Go's `appendInt` with zero-padding to width `w` (as used by
`time.Format` for the `2006`, `01`, `02`, `15`, `04`, `05` verbs). -/
def goPadNat (w n : Nat) : List Char :=
  let ds := natToDigits n
  List.replicate (w - ds.length) '0' ++ ds

/-- `%d` rendering of a Go `int`. -/
def goIntString (i : Int) : String :=
  if i < 0 then "-" ++ String.mk (natToDigits i.natAbs)
  else String.mk (natToDigits i.toNat)

/-- Go's `int(x)` conversion of a float modelled as a rational: truncation
toward zero. -/
def goIntOfRat (q : ℚ) : Int := if q < 0 then -(⌊-q⌋) else ⌊q⌋

/-! ## Go string helpers used by the pipeline -/

/-- `strings.ReplaceAll s (String.singleton a) (String.singleton b)`:
all uses in the source replace one character by one character. -/
def replaceAllChar (s : String) (a b : Char) : String :=
  String.mk (s.data.map (fun c => if c = a then b else c))

/-- `strings.ReplaceAll s (String.singleton a) ""`: removal of every
occurrence of one character. -/
def removeChar (s : String) (a : Char) : String :=
  String.mk (s.data.filter (fun c => ¬ (c = a)))

/-- ASCII lowercase of one character, as `strings.ToLower` acts on the
ASCII range. -/
def asciiToLowerChar (c : Char) : Char :=
  if 65 ≤ c.toNat ∧ c.toNat ≤ 90 then Char.ofNat (c.toNat + 32) else c

/-- `strings.ToLower` on ASCII data. -/
def asciiToLower (s : String) : String :=
  String.mk (s.data.map asciiToLowerChar)

/-- The apostrophe character (ASCII 39). -/
def apoChar : Char := Char.ofNat 39

/-- `filepath.Ext`: scan backwards to the last dot of the final
slash-separated element. -/
def extRevAux : List Char → List Char → String
  | [], _ => ""
  | c :: rest, acc =>
    if c = '/' then ""
    else if c = '.' then String.mk (c :: acc)
    else extRevAux rest (c :: acc)

/-- Go's `filepath.Ext`. -/
def goExt (s : String) : String := extRevAux s.data.reverse []

/-- `filepath.Join`: join the non-empty components with `/` (path cleaning
of `..`/`.`/duplicate separators is not modelled; all paths are treated as
opaque keys, exactly as the program does). -/
def pathJoin (elems : List String) : String :=
  String.intercalate ("/") (elems.filter (fun e => ¬ (e = "")))

/-- Structural lexicographic comparison of character lists (the order
SQLite's binary TEXT collation and Go's string `<` induce on ASCII data,
and the order `List Char` carries in Lean). -/
def listLtB : List Char → List Char → Bool
  | [], [] => false
  | [], _ :: _ => true
  | _ :: _, [] => false
  | a :: as, b :: bs =>
    if a < b then true
    else if b < a then false
    else listLtB as bs

/-- Kernel-computable string comparison, equivalent to `String.lt`. -/
def strLtB (a b : String) : Bool := listLtB a.data b.data

/-! ## Go `time` model: parsing and formatting -/

/-- The six calendar/clock fields `time.Parse` extracts for the layouts the
program uses (no zone: all comparisons and formats in the program are
zone-independent). -/
structure GoDateTime where
  year : Nat
  month : Nat
  day : Nat
  hour : Nat
  minute : Nat
  second : Nat
deriving Repr, DecidableEq

/-- Go's `isLeap`. -/
def isLeapYear (y : Nat) : Bool :=
  y % 4 == 0 && (y % 100 != 0 || y % 400 == 0)

/-- Go's `daysIn(month, year)`. -/
def daysIn (month year : Nat) : Nat :=
  if month = 2 then (if isLeapYear year then 29 else 28)
  else if month = 4 ∨ month = 6 ∨ month = 9 ∨ month = 11 then 30
  else 31

/-- Read exactly two digit characters (Go's `getnum` with `fixed = true`).
-/
def readFixed2 : List Char → Option (Nat × List Char)
  | a :: b :: rest =>
    if isDigitC a && isDigitC b then some (digitVal a * 10 + digitVal b, rest)
    else none
  | _ => none

/-- Read exactly four digit characters (Go's long-year field `2006`). -/
def readFixed4 : List Char → Option (Nat × List Char)
  | a :: b :: c :: d :: rest =>
    if isDigitC a && isDigitC b && isDigitC c && isDigitC d then
      some (((digitVal a * 10 + digitVal b) * 10 + digitVal c) * 10 + digitVal d, rest)
    else none
  | _ => none

/-- Read one or two digit characters (Go's `getnum` with `fixed = false`,
used for the hour field `15`). -/
def readNum1or2 : List Char → Option (Nat × List Char)
  | [] => none
  | [a] => if isDigitC a then some (digitVal a, []) else none
  | a :: b :: rest =>
    if isDigitC a then
      if isDigitC b then some (digitVal a * 10 + digitVal b, rest)
      else some (digitVal a, b :: rest)
    else none

/-- Consume one literal character of the layout. -/
def readLit (c : Char) : List Char → Option (List Char)
  | [] => none
  | x :: rest => if x = c then some rest else none

/-- Drop a maximal run of leading digits. -/
def dropDigits : List Char → List Char
  | [] => []
  | c :: rest => if isDigitC c then dropDigits rest else c :: rest

/-- Go's optional fractional-second rule after a seconds field: if the next
two characters are a period or comma followed by a digit, consume the
separator and the whole digit run. -/
def readFrac : List Char → List Char
  | c :: d :: rest =>
    if (c = '.' ∨ c = ',') && isDigitC d then dropDigits rest
    else c :: d :: rest
  | l => l

/-- Shared date front `YYYY-MM-DD` of all three layouts, with Go's range
checks on month and day. -/
def readDatePart (cs : List Char) : Option (Nat × Nat × Nat × List Char) :=
  match readFixed4 cs with
  | none => none
  | some (y, cs) =>
  match readLit ('-') cs with
  | none => none
  | some cs =>
  match readFixed2 cs with
  | none => none
  | some (mo, cs) =>
  match readLit ('-') cs with
  | none => none
  | some cs =>
  match readFixed2 cs with
  | none => none
  | some (d, cs) =>
  if 1 ≤ mo ∧ mo ≤ 12 then
    if 1 ≤ d ∧ d ≤ daysIn mo y then some (y, mo, d, cs) else none
  else none

/-- Clock part `HH:MM:SS` as parsed for the layout `15:04:05`: hour of one
or two digits, fixed two-digit minute and second, Go's range checks, and
Go's optional fractional second. -/
def readClockPart (cs : List Char) : Option (Nat × Nat × Nat × List Char) :=
  match readNum1or2 cs with
  | none => none
  | some (h, cs) =>
  if h ≤ 23 then
    match readLit (':') cs with
    | none => none
    | some cs =>
    match readFixed2 cs with
    | none => none
    | some (mi, cs) =>
    if mi ≤ 59 then
      match readLit (':') cs with
      | none => none
      | some cs =>
      match readFixed2 cs with
      | none => none
      | some (s, cs) =>
      if s ≤ 59 then some (h, mi, s, readFrac cs) else none
    else none
  else none

/-- `time.Parse ("2006-01-02T15:04:05") s`: the combined layout used by
`GenerateClipName` and `handleFileTransferWithFS`. -/
def goParseDateTime (s : String) : Option GoDateTime :=
  match readDatePart s.data with
  | none => none
  | some (y, mo, d, cs) =>
  match readLit ('T') cs with
  | none => none
  | some cs =>
  match readClockPart cs with
  | none => none
  | some (h, mi, sec, cs) =>
  if cs = [] then some ⟨y, mo, d, h, mi, sec⟩ else none

/-- `time.Parse time.RFC3339 s`: the combined layout plus a mandatory zone
suffix `Z` or `±HH:MM`. Only the calendar/clock fields are retained — the
program formats the result with the zone-independent verb `2006-01-02`. -/
def goParseRFC3339 (s : String) : Option GoDateTime :=
  match readDatePart s.data with
  | none => none
  | some (y, mo, d, cs) =>
  match readLit ('T') cs with
  | none => none
  | some cs =>
  match readClockPart cs with
  | none => none
  | some (h, mi, sec, cs) =>
  match cs with
  | ['Z'] => some ⟨y, mo, d, h, mi, sec⟩
  | sign :: cs =>
    if sign = '+' ∨ sign = '-' then
      match readFixed2 cs with
      | none => none
      | some (zh, cs) =>
      if zh ≤ 23 then
        match readLit (':') cs with
        | none => none
        | some cs =>
        match readFixed2 cs with
        | none => none
        | some (zm, cs) =>
        if zm ≤ 59 ∧ cs = [] then some ⟨y, mo, d, h, mi, sec⟩ else none
      else none
    else none
  | [] => none

/-- `time.Parse ("2006-01-02") s`: the plain-date fallback layout of
`convertDetectionToNote`. -/
def goParseDate (s : String) : Option GoDateTime :=
  match readDatePart s.data with
  | none => none
  | some (y, mo, d, cs) =>
  if cs = [] then some ⟨y, mo, d, 0, 0, 0⟩ else none

/-- `t.Format ("2006-01-02")`. -/
def formatDate (t : GoDateTime) : String :=
  String.mk (goPadNat 4 t.year) ++ "-" ++ String.mk (goPadNat 2 t.month) ++
    "-" ++ String.mk (goPadNat 2 t.day)

/-- `t.Format ("20060102T150405Z")`. -/
def formatTimestamp (t : GoDateTime) : String :=
  String.mk (goPadNat 4 t.year) ++ String.mk (goPadNat 2 t.month) ++
    String.mk (goPadNat 2 t.day) ++ "T" ++ String.mk (goPadNat 2 t.hour) ++
    String.mk (goPadNat 2 t.minute) ++ String.mk (goPadNat 2 t.second) ++ "Z"

/-- `t.Format ("2006")`. -/
def formatYear (t : GoDateTime) : String := String.mk (goPadNat 4 t.year)

/-- `t.Format ("01")`. -/
def formatMonth (t : GoDateTime) : String := String.mk (goPadNat 2 t.month)

/-! ## Data model (`dbops.go`) -/

/-- `Note` of `dbops.go`: one migrated observation in the target schema. -/
structure Note where
  ID : Nat
  Date : String
  Time : String
  ScientificName : String
  CommonName : String
  Confidence : ℚ
  Latitude : ℚ
  Longitude : ℚ
  Threshold : ℚ
  Sensitivity : ℚ
  ClipName : String
  Verified : String
deriving Repr, DecidableEq

/-- `Detection` of `dbops.go`: one row of the source `detections` table. -/
structure Detection where
  Date : String
  Time : String
  SciName : String
  ComName : String
  Confidence : ℚ
  Lat : ℚ
  Lon : ℚ
  Cutoff : ℚ
  Week : Int
  Sens : ℚ
  Overlap : ℚ
  FileName : String
deriving Repr, DecidableEq

/-- `FileOperationType` of `main.go` (a Go `int`). -/
abbrev FileOperationType := Int

/-- `CopyFile` constant of `main.go` (`iota` = 0). -/
def CopyFile : FileOperationType := 0

/-- `MoveFile` constant of `main.go` (`iota` = 1). -/
def MoveFile : FileOperationType := 1

/-! ## `GenerateClipName` (`fileops.go` lines 202–229) -/

/-- `GenerateClipName` of `fileops.go`: parse `Date ++ "T" ++ Time` under
the custom layout; on failure return the empty string; otherwise build
`<sanitized sci name>_<int(conf*100)>p_<YYYYMMDDTHHMMSSZ><ext>`. -/
def GenerateClipName (d : Detection) : String :=
  match goParseDateTime (d.Date ++ "T" ++ d.Time) with
  | none => ""
  | some t =>
    let formattedDateTime := formatTimestamp t
    let s1 := asciiToLower d.SciName
    let s2 := replaceAllChar s1 ' ' '_'
    let s3 := removeChar s2 '-'
    let s4 := removeChar s3 ':'
    let confidencePercentage := goIntString (goIntOfRat (d.Confidence * 100)) ++ "p"
    s4 ++ "_" ++ confidencePercentage ++ "_" ++ formattedDateTime ++ goExt d.FileName

/-! ## `convertDetectionToNote` (`dbops.go` lines 219–252)

The Go function mutates `detection.Date` in place through the pointer; the
embedding returns the updated record alongside the produced `Note`. -/

/-- The in-place date rewrite of `convertDetectionToNote`: try RFC3339,
then plain `2006-01-02`; only on success reformat the date as
`2006-01-02`, otherwise keep the original string. -/
def normalizeDetectionDate (d : Detection) : Detection :=
  match goParseRFC3339 d.Date with
  | some t => { d with Date := formatDate t }
  | none =>
    match goParseDate d.Date with
    | some t => { d with Date := formatDate t }
    | none => d

/-- `convertDetectionToNote` of `dbops.go`: first component is the returned
`Note`, second the detection record after the in-place date rewrite. -/
def convertDetectionToNote (d : Detection) : Note × Detection :=
  let d := normalizeDetectionDate d
  let clipName := GenerateClipName d
  (⟨0, d.Date, d.Time, d.SciName, d.ComName, d.Confidence, d.Lat, d.Lon,
    d.Cutoff, d.Sens, clipName, "unverified"⟩, d)

/-! ## Watermark and resume predicate (`dbops.go` lines 254–281) -/

/-- Strict "comes after" on notes under `ORDER BY date DESC, time DESC`:
`noteAfter a b` holds when `a`'s (date, time) is strictly greater than
`b`'s in lexicographic string order. -/
def noteAfter (a b : Note) : Bool :=
  strLtB b.Date a.Date || (decide (b.Date = a.Date) && strLtB b.Time a.Time)

/-- `findLastEntryInTargetDB` of `dbops.go` over the target store's list of
notes: `First` under `ORDER BY date DESC, time DESC`, i.e. a note with
maximal (date, time); an empty store gracefully yields `none`. -/
def findLastEntryInTargetDB (notes : List Note) : Option Note :=
  notes.foldl
    (fun acc n =>
      match acc with
      | none => some n
      | some m => if noteAfter n m then some n else some m)
    none

/-- The exact resume clause string built by `formulateQuery`. -/
def resumeClause : String := "date > ? OR (date = ? AND time > ?)"

/-- `formulateQuery` of `dbops.go`: with a watermark note, the fixed clause
with parameters (date, date, time); without one, the empty clause and no
parameters. -/
def formulateQuery (lastNote : Option Note) : String × List String :=
  match lastNote with
  | some n => (resumeClause, [n.Date, n.Date, n.Time])
  | none => ("", [])

/-- Modelled from the spec: the relational store's evaluation of the only
two where-clauses the program generates (`""` and the resume clause) on a
source row. SQLite compares TEXT values in byte order, which on the ASCII
data at hand is the `String` order. An empty clause selects every row. -/
def evalResumeClause (wc : String) (ps : List String) (d : Detection) : Bool :=
  if wc = "" then true
  else if wc = resumeClause then
    match ps with
    | [p1, p2, p3] =>
      strLtB p1 d.Date || (decide (d.Date = p2) && strLtB p3 d.Time)
    | _ => false
  else false

/-- Lexicographic (date, time) order on notes, the sense in which the
watermark is maximal. -/
def lexLeNote (a b : Note) : Prop :=
  a.Date < b.Date ∨ (a.Date = b.Date ∧ a.Time ≤ b.Time)

/-! ## Filesystem model (`fileops.go`)

The `FileSystem` interface of `fileops.go` (and its map-backed mock in the
tests) modelled as a partial map from path strings to byte contents, plus a
record of directories created and per-path fault sets that make individual
`WriteFile`/`Remove`/`MkdirAll` calls fail, so that the error branches of
the transfer code are reachable. -/

/-- Byte content of one file. -/
abbrev FileData := List Nat

/-- The storage backend state. -/
structure FS where
  files : String → Option FileData
  dirs : String → Bool
  writeFails : String → Bool
  removeFails : String → Bool
  mkdirFails : String → Bool

/-- `FileExists` of `fileops.go` (`Stat` + `!os.IsNotExist`). -/
def fileExists (fs : FS) (p : String) : Bool := (fs.files p).isSome

/-- `ReadFile`: the content, or `none` on error (missing file). -/
def fsReadFile (fs : FS) (p : String) : Option FileData := fs.files p

/-- The state after a successful write of `data` at `p`. -/
def fsWithFile (fs : FS) (p : String) (data : FileData) : FS :=
  { fs with files := fun q => if q = p then some data else fs.files q }

/-- The state after a successful removal of `p`. -/
def fsWithout (fs : FS) (p : String) : FS :=
  { fs with files := fun q => if q = p then none else fs.files q }

/-- The state after a successful directory creation at `p`. -/
def fsWithDir (fs : FS) (p : String) : FS :=
  { fs with dirs := fun q => if q = p then true else fs.dirs q }

/-- `WriteFile`: overwrite `p` with `data`, or fail when the fault set says
so (`none` = error, state unchanged). -/
def fsWriteFile (fs : FS) (p : String) (data : FileData) : Option FS :=
  if fs.writeFails p then none else some (fsWithFile fs p data)

/-- `Remove`: delete `p`; error when faulted or when `p` does not exist. -/
def fsRemove (fs : FS) (p : String) : Option FS :=
  if fs.removeFails p then none
  else if (fs.files p).isSome then some (fsWithout fs p)
  else none

/-- `MkdirAll`: record the directory; error when faulted. -/
def fsMkdirAll (fs : FS) (p : String) : Option FS :=
  if fs.mkdirFails p then none else some (fsWithDir fs p)

/-- The distinguishable exit points of `handleFileTransferWithFS`, one per
`return`/log site of the Go function. -/
inductive TransferOutcome
  | sourceNotFound
  | dateParseError
  | mkdirError
  | readError
  | writeError
  | copied
  | moved
  | unsupported
deriving Repr, DecidableEq

/-- First candidate source path of `handleFileTransferWithFS` (verbatim
common name). -/
def sourceCandidate1 (d : Detection) (sourceFilesDir : String) : String :=
  pathJoin [sourceFilesDir, "Extracted", "By_Date", d.Date, d.ComName, d.FileName]

/-- The transformed common name of the fallback candidate: spaces replaced
by underscores, apostrophes removed. -/
def comNameFormatted (d : Detection) : String :=
  removeChar (replaceAllChar d.ComName ' ' '_') apoChar

/-- Second candidate source path (transformed common name). -/
def sourceCandidate2 (d : Detection) (sourceFilesDir : String) : String :=
  pathJoin [sourceFilesDir, "Extracted", "By_Date", d.Date, comNameFormatted d, d.FileName]

/-- The target directory `<targetFilesDir>/<year>/<month>` of a transfer. -/
def transferTargetSubDir (targetFilesDir : String) (t : GoDateTime) : String :=
  pathJoin [targetFilesDir, formatYear t, formatMonth t]

/-- The full target path of a transfer. -/
def transferTargetPath (d : Detection) (targetFilesDir : String) (t : GoDateTime) : String :=
  pathJoin [transferTargetSubDir targetFilesDir t, GenerateClipName d]

/-- The body of `handleFileTransferWithFS` after source resolution
(`fileops.go` lines 88–158): parse the record's date for the
`<year>/<month>` layout, create the target directory, then copy
(read + write) or move (read + write + remove, a remove failure being
logged and ignored). -/
def transferResolved (detection : Detection) (targetFilesDir : String)
    (operation : FileOperationType) (sourceFilePath : String) (fs : FS) :
    FS × TransferOutcome :=
  match goParseDateTime (detection.Date ++ "T" ++ detection.Time) with
  | none => (fs, .dateParseError)
  | some parsedDate =>
    let targetSubDir := transferTargetSubDir targetFilesDir parsedDate
    let targetFilePath := pathJoin [targetSubDir, GenerateClipName detection]
    match fsMkdirAll fs targetSubDir with
    | none => (fs, .mkdirError)
    | some fs =>
      if operation = CopyFile then
        match fsReadFile fs sourceFilePath with
        | none => (fs, .readError)
        | some data =>
          match fsWriteFile fs targetFilePath data with
          | none => (fs, .writeError)
          | some fs => (fs, .copied)
      else if operation = MoveFile then
        match fsReadFile fs sourceFilePath with
        | none => (fs, .readError)
        | some data =>
          match fsWriteFile fs targetFilePath data with
          | none => (fs, .writeError)
          | some fs =>
            match fsRemove fs sourceFilePath with
            | none => (fs, .moved)
            | some fs => (fs, .moved)
      else (fs, .unsupported)

/-- `handleFileTransferWithFS` of `fileops.go` (lines 71–159): resolve the
source under the two naming conventions — the verbatim common name first,
then the transformed one — skip with no effect when neither exists, and
otherwise run the transfer body on the resolved path. Returns the new
filesystem and the exit point taken. -/
def handleFileTransferWithFS (detection : Detection)
    (sourceFilesDir targetFilesDir : String) (operation : FileOperationType)
    (fs : FS) : FS × TransferOutcome :=
  let p1 := sourceCandidate1 detection sourceFilesDir
  if fileExists fs p1 then
    transferResolved detection targetFilesDir operation p1 fs
  else
    let p2 := sourceCandidate2 detection sourceFilesDir
    if fileExists fs p2 then
      transferResolved detection targetFilesDir operation p2 fs
    else (fs, .sourceNotFound)

/-! ## Relational store model (`dbops.go`)

One SQLite file is a `DBState`: the two tables the program touches, with
presence flags (a table may not exist), plus a fault flag making the
source-count query of `getTotalRecordCount` fail, so that its error branch
is reachable. Store opens themselves never fail in the model (an open
failure is process-fatal in the program and outside the claims). -/

structure DBState where
  hasNotesTable : Bool
  notes : List Note
  hasDetectionsTable : Bool
  detections : List Detection
  countFails : Bool

/-- `targetDB.Create(&note)`: append the note, the store assigning the
surrogate identifier. -/
def dbCreateNote (db : DBState) (n : Note) : DBState :=
  { db with notes := db.notes ++ [{ n with ID := db.notes.length + 1 }] }

/-- `initializeAndMigrateTargetDB` of `dbops.go` (lines 94–140): execute
the write PRAGMAs and `AutoMigrate(&Note{})`, which creates the `notes`
table (and its indexes) when it does not exist. -/
def initializeAndMigrateTargetDB (db : DBState) : DBState :=
  { db with hasNotesTable := true }

/-- `getTotalRecordCount` of `dbops.go` (lines 154–170): count the source
rows matching the clause; on a query error, log and return 0. -/
def getTotalRecordCount (db : DBState) (whereClause : String) (params : List String) : Nat :=
  if db.countFails then 0
  else ((db.detections.filter (evalResumeClause whereClause params)).length)

/-- Total order used by `ORDER BY date ASC, time ASC` on detections. -/
def detLe (a b : Detection) : Bool :=
  strLtB a.Date b.Date || (decide (a.Date = b.Date) && !(strLtB b.Time a.Time))

/-- `fetchBatch` of `dbops.go`: the filtered rows in (date, time) order,
from `offset`, at most `batchSize` of them. -/
def fetchBatch (db : DBState) (offset batchSize : Nat) (whereClause : String)
    (params : List String) : List Detection :=
  ((((db.detections.filter (evalResumeClause whereClause params)).mergeSort
      (fun a b => detLe a b)).drop offset).take batchSize)

/-- `processDetection` of `dbops.go` (lines 208–217): convert (mutating the
record's date), insert the note, and unless audio transfer is skipped run
the file transfer on the mutated record. The fire-and-forget goroutine is
modelled as an immediate sequential call. -/
def processDetection (targetDB : DBState) (detection : Detection)
    (sourceFilesDir targetFilesDir : String) (operation : FileOperationType)
    (skipAudioTransfer : Bool) (fs : FS) : DBState × FS :=
  let (note, detection) := convertDetectionToNote detection
  let targetDB := dbCreateNote targetDB note
  if skipAudioTransfer then (targetDB, fs)
  else (targetDB,
    (handleFileTransferWithFS detection sourceFilesDir targetFilesDir operation fs).1)

/-- The offsets `0, 1000, 2000, …` visited by the batch loop
`for offset := 0; offset < totalCount; offset += batchSize`. -/
def batchOffsets (totalCount : Nat) : List Nat :=
  (List.range ((totalCount + 999) / 1000)).map (fun i => i * 1000)

/-- One batch iteration of `processRecordsInBatches`: fetch, print the
progress line, process each record in order. -/
def processOneBatch (sourceDB : DBState) (totalCount : Nat)
    (sourceFilesDir targetFilesDir : String) (operation : FileOperationType)
    (skipAudioTransfer : Bool) (whereClause : String) (params : List String)
    (offset : Nat) (st : DBState × FS × List String) : DBState × FS × List String :=
  let (targetDB, fs, trace) := st
  let batch := fetchBatch sourceDB offset 1000 whereClause params
  let line := "Processing batch " ++ toString (offset + 1) ++ "-" ++
    toString (offset + batch.length) ++ " of " ++ toString totalCount
  let (targetDB, fs) := batch.foldl
    (fun (st : DBState × FS) det =>
      processDetection st.1 det sourceFilesDir targetFilesDir operation
        skipAudioTransfer st.2)
    (targetDB, fs)
  (targetDB, fs, trace ++ [line])

/-- `processRecordsInBatches` of `dbops.go` (lines 174–185), also
collecting the progress lines it prints. -/
def processRecordsInBatches (sourceDB targetDB : DBState) (totalCount : Nat)
    (sourceFilesDir targetFilesDir : String) (operation : FileOperationType)
    (skipAudioTransfer : Bool) (whereClause : String) (params : List String)
    (fs : FS) : DBState × FS × List String :=
  (batchOffsets totalCount).foldl
    (fun st offset =>
      processOneBatch sourceDB totalCount sourceFilesDir targetFilesDir operation
        skipAudioTransfer whereClause params offset st)
    (targetDB, fs, [])

/-! ## The world: database files plus the filesystem -/

/-- The full mutable state a run touches: which database files exist, the
store behind each path, and the audio filesystem. -/
structure World where
  dbFileExists : String → Bool
  dbs : String → DBState
  fs : FS

/-- Point update of a path-indexed store map. -/
def updateDB (f : String → DBState) (k : String) (v : DBState) : String → DBState :=
  fun q => if q = k then v else f q

/-- `convertAndTransferData` of `dbops.go` (lines 56–92): the main run.
Returns the final world and the lines printed on the main flow (the early
log-and-return messages, the total count, the per-batch progress lines,
and the completion message). -/
def convertAndTransferData (sourceDBPath targetDBPath sourceFilesDir targetFilesDir : String)
    (operation : FileOperationType) (skipAudioTransfer : Bool) (w : World) :
    World × List String :=
  if ¬ (w.dbFileExists sourceDBPath) then
    (w, ["Source database file does not exist: " ++ sourceDBPath])
  else
    let sourceDB := w.dbs sourceDBPath
    if ¬ sourceDB.hasDetectionsTable then
      (w, ["detections table not found in source database: " ++ sourceDBPath])
    else
      let targetDB := initializeAndMigrateTargetDB (w.dbs targetDBPath)
      let lastNote := findLastEntryInTargetDB targetDB.notes
      let q := formulateQuery lastNote
      let totalCount := getTotalRecordCount sourceDB q.1 q.2
      let res := processRecordsInBatches sourceDB targetDB totalCount sourceFilesDir
        targetFilesDir operation skipAudioTransfer q.1 q.2 w.fs
      ({ w with dbs := updateDB w.dbs targetDBPath res.1, fs := res.2.1 },
        ("Total records to process: " ++ toString totalCount) :: res.2.2 ++
          ["Data conversion and file transfer completed successfully."])

/-! ## `MergeDatabases` (`dbops.go` lines 283–349) -/

/-- `mergeNotes` of `dbops.go`: batched copy of the source notes into the
target, dropping the surrogate identifier so the target assigns its own. -/
def mergeNotes (sourceDB targetDB : DBState) : DBState :=
  let totalNotes := sourceDB.notes.length
  let numBatches := (totalNotes + 1000 - 1) / 1000
  (List.range numBatches).foldl
    (fun tdb i =>
      ((sourceDB.notes.drop (i * 1000)).take 1000).foldl
        (fun tdb note => dbCreateNote tdb { note with ID := 0 })
        tdb)
    targetDB

/-- `mergeDetections` of `dbops.go`: batched conversion of the source
detections into notes inserted into the target. -/
def mergeDetections (sourceDB targetDB : DBState) : DBState :=
  let totalDetections := sourceDB.detections.length
  let numBatches := (totalDetections + 1000 - 1) / 1000
  (List.range numBatches).foldl
    (fun tdb i =>
      ((sourceDB.detections.drop (i * 1000)).take 1000).foldl
        (fun tdb det => dbCreateNote tdb (convertDetectionToNote det).1)
        tdb)
    targetDB

/-- `MergeDatabases` of `dbops.go` (lines 283–349). Both path checks come
before either store is opened; afterwards both stores go through
`initializeAndMigrateTargetDB` (so the `notes` table of the *source* now
always exists and its count query succeeds), and the routing follows the
Go branches: a non-empty `notes` table is copied as notes, an empty one
with a non-empty `detections` table routes to the conversion path, and an
empty source is a no-op success. Returns the final world and `some` error
message, or `none` on success. -/
def MergeDatabases (sourceDBPath targetDBPath : String) (w : World) :
    World × Option String :=
  if sourceDBPath = targetDBPath then
    (w, some ("source and target database paths cannot be the same"))
  else if ¬ (w.dbFileExists sourceDBPath) then
    (w, some ("source database file does not exist: " ++ sourceDBPath))
  else
    let sourceDB := initializeAndMigrateTargetDB (w.dbs sourceDBPath)
    let targetDB := initializeAndMigrateTargetDB (w.dbs targetDBPath)
    let notesCount := sourceDB.notes.length
    let persist := fun (tdb : DBState) =>
      updateDB (updateDB w.dbs sourceDBPath sourceDB) targetDBPath tdb
    if notesCount = 0 ∧ sourceDB.hasDetectionsTable ∧ 0 < sourceDB.detections.length then
      ({ w with dbs := persist (mergeDetections sourceDB targetDB) }, none)
    else if 0 < notesCount then
      ({ w with dbs := persist (mergeNotes sourceDB targetDB) }, none)
    else
      ({ w with dbs := persist targetDB }, none)

/-! ## Sample data used by the witnesses -/

/-- The record of the spec's naming scenario. -/
def sampleDet : Detection :=
  ⟨"2023-01-15", "13:45:30", "Corvus corax", "Common Raven", 0.95,
    0, 0, 0, 0, 0, 0, "clip.wav"⟩

/-- A record carrying an RFC3339 date representation. -/
def rfcDet : Detection :=
  ⟨"2023-01-15T13:45:30Z", "13:45:30", "Corvus corax", "Common Raven", 0.95,
    0, 0, 0, 0, 0, 0, "clip.wav"⟩

/-- A record whose date parses under neither layout. -/
def badDateDet : Detection :=
  ⟨"15/01/2023", "13:45:30", "Corvus corax", "Common Raven", 0.95,
    0, 0, 0, 0, 0, 0, "clip.wav"⟩

/-- An earlier note in the target store. -/
def wmNote1 : Note :=
  ⟨1, "2023-01-14", "10:00:00", "Corvus corax", "Common Raven", 0, 0, 0, 0, 0,
    "a.wav", "unverified"⟩

/-- The latest note in the target store: the watermark. -/
def wmNote2 : Note :=
  ⟨2, "2023-01-15", "13:45:30", "Corvus corax", "Common Raven", 0, 0, 0, 0, 0,
    "b.wav", "unverified"⟩

/-- A source row strictly after the watermark. -/
def laterDet : Detection :=
  ⟨"2023-01-16", "00:00:00", "Corvus corax", "Common Raven", 0,
    0, 0, 0, 0, 0, 0, "c.wav"⟩

/-- A record whose common name carries a space and an apostrophe. -/
def apoComDet : Detection :=
  ⟨"2023-01-15", "13:45:30", "Corvus corax",
    String.mk ['C', 'o', 'o', 'p', 'e', 'r', apoChar, 's', ' ', 'H', 'a', 'w', 'k'],
    0.95, 0, 0, 0, 0, 0, 0, "clip.wav"⟩

/-- The path at which simultaneous source/destination collision occurs for
`collideDet`. -/
def collidePath : String :=
  "root/Extracted/By_Date/2023-01-15/2023/01/corvus_corax_95p_20230115T134530Z.wav"

/-- A record whose artifact resolves to the very path its transfer writes:
the common name embeds a path separator, making the source path equal the
computed destination path. -/
def collideDet : Detection :=
  ⟨"2023-01-15", "13:45:30", "Corvus corax", "2023/01", 0.95,
    0, 0, 0, 0, 0, 0, "corvus_corax_95p_20230115T134530Z.wav"⟩

/-- A filesystem holding exactly the colliding artifact, with no faults. -/
def collideFS : FS :=
  ⟨fun p => if p = collidePath then some [1, 2, 3] else none,
    fun _ => false, fun _ => false, fun _ => false, fun _ => false⟩

/-- A one-file filesystem holding `sampleDet`'s artifact under the verbatim
common name, with no faults. -/
def sampleSrcPath : String :=
  "src/Extracted/By_Date/2023-01-15/Common Raven/clip.wav"

def sampleFS : FS :=
  ⟨fun p => if p = sampleSrcPath then some [7, 8, 9] else none,
    fun _ => false, fun _ => false, fun _ => false, fun _ => false⟩

/-- `sampleFS` with the source removal faulted. -/
def sampleFSRemoveFail : FS :=
  ⟨fun p => if p = sampleSrcPath then some [7, 8, 9] else none,
    fun _ => false, fun _ => false, fun p => p = sampleSrcPath, fun _ => false⟩

/-- `sampleFS` with every write faulted. -/
def sampleFSWriteFail : FS :=
  ⟨fun p => if p = sampleSrcPath then some [7, 8, 9] else none,
    fun _ => false, fun _ => true, fun _ => false, fun _ => false⟩

/-- An empty filesystem. -/
def emptyFS : FS :=
  ⟨fun _ => none, fun _ => false, fun _ => false, fun _ => false, fun _ => false⟩

/-- A filesystem holding `sampleDet`'s artifact only under the
transformed (underscored) common name. -/
def underscoreFS : FS :=
  ⟨fun p => if p = "src/Extracted/By_Date/2023-01-15/Common_Raven/clip.wav"
    then some [4, 5, 6] else none,
    fun _ => false, fun _ => false, fun _ => false, fun _ => false⟩

/-- An empty store. -/
def emptyDB : DBState := ⟨false, [], false, [], false⟩

/-- A store with only a `detections` table, no `notes` table, and a
non-empty detections list whose count query is faulted. -/
def faultyCountDB : DBState := ⟨false, [], true, [sampleDet], true⟩

/-- A world with one existing database file `src.db` whose store is
`faultyCountDB`; everything else is empty. -/
def mergeWorld : World :=
  ⟨fun p => p = "src.db", fun p => if p = "src.db" then faultyCountDB else emptyDB,
    emptyFS⟩

/-- The sanitization pipeline the spec describes for the scientific name:
lowercase, spaces to underscores, hyphens and colons removed (and nothing
else, in particular apostrophes kept). Stated from the spec's words, to be
compared with the pipeline inside `GenerateClipName`. -/
def sanitizeSciName (s : String) : String :=
  removeChar (removeChar (replaceAllChar (asciiToLower s) ' ' '_') '-') ':'

/-! # Theorems -/

/-! ## Sanity checks of the `time` model -/

example : goParseDateTime ("2023-01-15T13:45:30") =
    some ⟨2023, 1, 15, 13, 45, 30⟩ := by decide

example : goParseDateTime ("2023-01-15T13:45:60") = none := by decide

example : goParseDateTime ("2023-01-15T13:45") = none := by decide

example : goParseRFC3339 ("2023-01-15T13:45:30Z") =
    some ⟨2023, 1, 15, 13, 45, 30⟩ := by decide

example : goParseRFC3339 ("2023-01-15T13:45:30+02:00") =
    some ⟨2023, 1, 15, 13, 45, 30⟩ := by decide

example : goParseRFC3339 ("2023-01-15") = none := by decide

example : goParseDate ("2023-01-15") = some ⟨2023, 1, 15, 0, 0, 0⟩ := by
  decide

example : goParseDate ("2023-02-30") = none := by decide

example : goParseDate ("2024-02-29") = some ⟨2024, 2, 29, 0, 0, 0⟩ := by
  decide

example : goExt ("clip.wav") = ".wav" := by decide

example : goExt ("dir/clip") = "" := by decide

/-! ## Helper lemmas: strings, characters, digits -/

theorem str_ext {a b : String} (h : a.data = b.data) : a = b := by
  cases a; cases b; exact congrArg String.mk h

theorem char_eq_of_toNat_eq {a b : Char} (h : a.toNat = b.toNat) : a = b :=
  Char.eq_of_val_eq (UInt32.ext h)

theorem listLtB_iff : ∀ as bs : List Char, listLtB as bs = true ↔ as < bs := by
  intro as
  induction as with
  | nil =>
    intro bs
    cases bs with
    | nil =>
      constructor
      · intro h; exact absurd h (by decide)
      · intro h; cases h
    | cons b bs =>
      constructor
      · intro _; exact List.Lex.nil
      · intro _; rfl
  | cons a as ih =>
    intro bs
    cases bs with
    | nil =>
      constructor
      · intro h; simp [listLtB] at h
      · intro h; cases h
    | cons b bs =>
      simp only [listLtB]
      split
      next hab =>
        constructor
        · intro _; exact List.Lex.rel hab
        · intro _; rfl
      next hab =>
        split
        next hba =>
          constructor
          · intro h; exact absurd h (by decide)
          · intro h
            cases h with
            | rel h => exact absurd h hab
            | cons h => exact absurd hba (lt_irrefl a)
        next hba =>
          have heads : a = b := le_antisymm (not_lt.mp hba) (not_lt.mp hab)
          subst heads
          constructor
          · intro h
            exact List.Lex.cons ((ih bs).mp h)
          · intro h
            cases h with
            | rel h => exact absurd h hab
            | cons h => exact (ih bs).mpr h

theorem strLtB_iff {a b : String} : strLtB a b = true ↔ a < b := by
  rw [String.lt_iff_toList_lt]
  exact listLtB_iff a.data b.data

theorem strLtB_eq_false_iff {a b : String} : strLtB a b = false ↔ ¬ a < b := by
  rw [Bool.eq_false_iff]
  exact not_congr strLtB_iff

theorem char_toNat_ofNat {n : Nat} (h : n < 55296) : (Char.ofNat n).toNat = n := by
  simp [Char.ofNat, Nat.isValidChar, h, Char.ofNatAux, Char.toNat, UInt32.toNat,
    BitVec.toNat_ofNatLt]

theorem isDigitC_iff {c : Char} : isDigitC c = true ↔ 48 ≤ c.toNat ∧ c.toNat ≤ 57 := by
  simp [isDigitC]

theorem digitVal_le_9 {c : Char} (h : isDigitC c = true) : digitVal c ≤ 9 := by
  have := isDigitC_iff.mp h
  unfold digitVal
  omega

theorem digitChar_digitVal {c : Char} (h : isDigitC c = true) :
    digitChar (digitVal c) = c := by
  obtain ⟨h1, h2⟩ := isDigitC_iff.mp h
  apply char_eq_of_toNat_eq
  unfold digitVal
  have hv : c.toNat = 48 ∨ c.toNat = 49 ∨ c.toNat = 50 ∨ c.toNat = 51 ∨
      c.toNat = 52 ∨ c.toNat = 53 ∨ c.toNat = 54 ∨ c.toNat = 55 ∨
      c.toNat = 56 ∨ c.toNat = 57 := by omega
  rcases hv with h | h | h | h | h | h | h | h | h | h <;> rw [h] <;> rfl

theorem digitChar_toNat {d : Nat} (h : d ≤ 9) : (digitChar d).toNat = 48 + d := by
  interval_cases d <;> rfl

/-- A digit character is never a dash, so `formatDate` output survives the
inversion arguments below. -/
theorem digitChar_ne_dash {d : Nat} : ¬ (digitChar d = '-') := by
  unfold digitChar
  split <;> decide

theorem natToDigitsAux_small {fuel n : Nat} (hf : 0 < fuel) (hn : n < 10) :
    natToDigitsAux fuel n = [digitChar n] := by
  cases fuel with
  | zero => omega
  | succ f => simp [natToDigitsAux, hn]

theorem natToDigitsAux_two {fuel n : Nat} (hf : n < fuel) (h1 : 10 ≤ n) (h2 : n < 100) :
    natToDigitsAux fuel n = [digitChar (n / 10), digitChar (n % 10)] := by
  cases fuel with
  | zero => omega
  | succ f =>
    have : ¬ n < 10 := by omega
    simp only [natToDigitsAux, this, if_false]
    rw [natToDigitsAux_small (by omega) (by omega)]
    rfl

theorem natToDigitsAux_three {fuel n : Nat} (hf : n < fuel) (h1 : 100 ≤ n)
    (h2 : n < 1000) :
    natToDigitsAux fuel n =
      [digitChar (n / 100), digitChar (n / 10 % 10), digitChar (n % 10)] := by
  cases fuel with
  | zero => omega
  | succ f =>
    have : ¬ n < 10 := by omega
    simp only [natToDigitsAux, this, if_false]
    rw [natToDigitsAux_two (by omega) (by omega) (by omega)]
    have : n / 10 / 10 = n / 100 := by omega
    rw [this]
    rfl

theorem natToDigitsAux_four {fuel n : Nat} (hf : n < fuel) (h1 : 1000 ≤ n)
    (h2 : n < 10000) :
    natToDigitsAux fuel n =
      [digitChar (n / 1000), digitChar (n / 100 % 10), digitChar (n / 10 % 10),
        digitChar (n % 10)] := by
  cases fuel with
  | zero => omega
  | succ f =>
    have : ¬ n < 10 := by omega
    simp only [natToDigitsAux, this, if_false]
    rw [natToDigitsAux_three (by omega) (by omega) (by omega)]
    have e1 : n / 10 / 100 = n / 1000 := by omega
    have e2 : n / 10 / 10 % 10 = n / 100 % 10 := by omega
    rw [e1, e2]
    rfl

/-- Zero-padding to width 2 inverts the two-digit read. -/
theorem goPadNat_two {c d : Char} (hc : isDigitC c = true) (hd : isDigitC d = true) :
    goPadNat 2 (digitVal c * 10 + digitVal d) = [c, d] := by
  have hc9 := digitVal_le_9 hc
  have hd9 := digitVal_le_9 hd
  set n := digitVal c * 10 + digitVal d with hn
  rcases Nat.lt_or_ge n 10 with h10 | h10
  · have hc0 : digitVal c = 0 := by omega
    have : c = digitChar 0 := by rw [← hc0, digitChar_digitVal hc]
    unfold goPadNat natToDigits
    rw [natToDigitsAux_small (by omega) h10]
    have hnd : n = digitVal d := by omega
    rw [hnd, digitChar_digitVal hd, this]
    rfl
  · unfold goPadNat natToDigits
    rw [natToDigitsAux_two (by omega) h10 (by omega)]
    have e1 : n / 10 = digitVal c := by omega
    have e2 : n % 10 = digitVal d := by omega
    rw [e1, e2, digitChar_digitVal hc, digitChar_digitVal hd]
    rfl

/-- Zero-padding to width 4 inverts the four-digit read. -/
theorem goPadNat_four {a b c d : Char} (ha : isDigitC a = true) (hb : isDigitC b = true)
    (hc : isDigitC c = true) (hd : isDigitC d = true) :
    goPadNat 4 (((digitVal a * 10 + digitVal b) * 10 + digitVal c) * 10 + digitVal d) =
      [a, b, c, d] := by
  have ha9 := digitVal_le_9 ha
  have hb9 := digitVal_le_9 hb
  have hc9 := digitVal_le_9 hc
  have hd9 := digitVal_le_9 hd
  have hzero : ∀ x : Char, isDigitC x = true → digitVal x = 0 → x = '0' := by
    intro x hx h0
    have : x = digitChar 0 := by rw [← h0, digitChar_digitVal hx]
    simpa [digitChar] using this
  set n := ((digitVal a * 10 + digitVal b) * 10 + digitVal c) * 10 + digitVal d with hn
  rcases Nat.lt_or_ge n 10 with h10 | h10
  · have ha0 : digitVal a = 0 := by omega
    have hb0 : digitVal b = 0 := by omega
    have hc0 : digitVal c = 0 := by omega
    unfold goPadNat natToDigits
    rw [natToDigitsAux_small (by omega) h10]
    have hnd : n = digitVal d := by omega
    rw [hnd, digitChar_digitVal hd,
      hzero a ha ha0, hzero b hb hb0, hzero c hc hc0]
    rfl
  · rcases Nat.lt_or_ge n 100 with h100 | h100
    · have ha0 : digitVal a = 0 := by omega
      have hb0 : digitVal b = 0 := by omega
      unfold goPadNat natToDigits
      rw [natToDigitsAux_two (by omega) h10 h100]
      have e1 : n / 10 = digitVal c := by omega
      have e2 : n % 10 = digitVal d := by omega
      rw [e1, e2, digitChar_digitVal hc, digitChar_digitVal hd,
        hzero a ha ha0, hzero b hb hb0]
      rfl
    · rcases Nat.lt_or_ge n 1000 with h1000 | h1000
      · have ha0 : digitVal a = 0 := by omega
        unfold goPadNat natToDigits
        rw [natToDigitsAux_three (by omega) h100 h1000]
        have e1 : n / 100 = digitVal b := by omega
        have e2 : n / 10 % 10 = digitVal c := by omega
        have e3 : n % 10 = digitVal d := by omega
        rw [e1, e2, e3, digitChar_digitVal hb, digitChar_digitVal hc,
          digitChar_digitVal hd, hzero a ha ha0]
        rfl
      · unfold goPadNat natToDigits
        rw [natToDigitsAux_four (by omega) h1000 (by omega)]
        have e1 : n / 1000 = digitVal a := by omega
        have e2 : n / 100 % 10 = digitVal b := by omega
        have e3 : n / 10 % 10 = digitVal c := by omega
        have e4 : n % 10 = digitVal d := by omega
        rw [e1, e2, e3, e4, digitChar_digitVal ha, digitChar_digitVal hb,
          digitChar_digitVal hc, digitChar_digitVal hd]
        rfl

/-! ## Parser inversion and the plain-date round trip -/

theorem readFixed2_some {cs rest : List Char} {n : Nat}
    (h : readFixed2 cs = some (n, rest)) :
    ∃ a b, cs = a :: b :: rest ∧ isDigitC a = true ∧ isDigitC b = true ∧
      n = digitVal a * 10 + digitVal b := by
  rcases cs with _ | ⟨a, cs⟩
  · simp [readFixed2] at h
  rcases cs with _ | ⟨b, cs⟩
  · simp [readFixed2] at h
  simp only [readFixed2] at h
  split at h
  case isTrue hd =>
    simp only [Option.some.injEq, Prod.mk.injEq] at h
    obtain ⟨hn, hrest⟩ := h
    simp only [Bool.and_eq_true] at hd
    exact ⟨a, b, by rw [hrest], hd.1, hd.2, hn.symm⟩
  case isFalse => simp at h

theorem readFixed4_some {cs rest : List Char} {n : Nat}
    (h : readFixed4 cs = some (n, rest)) :
    ∃ a b c d, cs = a :: b :: c :: d :: rest ∧ isDigitC a = true ∧
      isDigitC b = true ∧ isDigitC c = true ∧ isDigitC d = true ∧
      n = ((digitVal a * 10 + digitVal b) * 10 + digitVal c) * 10 + digitVal d := by
  rcases cs with _ | ⟨a, cs⟩
  · simp [readFixed4] at h
  rcases cs with _ | ⟨b, cs⟩
  · simp [readFixed4] at h
  rcases cs with _ | ⟨c, cs⟩
  · simp [readFixed4] at h
  rcases cs with _ | ⟨d, cs⟩
  · simp [readFixed4] at h
  simp only [readFixed4] at h
  split at h
  case isTrue hd =>
    simp only [Option.some.injEq, Prod.mk.injEq] at h
    obtain ⟨hn, hrest⟩ := h
    simp only [Bool.and_eq_true] at hd
    exact ⟨a, b, c, d, by rw [hrest], hd.1.1.1, hd.1.1.2, hd.1.2, hd.2, hn.symm⟩
  case isFalse => simp at h

theorem readLit_some {c : Char} {cs rest : List Char}
    (h : readLit c cs = some rest) : cs = c :: rest := by
  rcases cs with _ | ⟨x, cs⟩
  · simp [readLit] at h
  simp only [readLit] at h
  split at h
  case isTrue hx => simp only [Option.some.injEq] at h; rw [hx, h]
  case isFalse => simp at h

theorem readDatePart_some {cs rest : List Char} {y mo d : Nat}
    (h : readDatePart cs = some (y, mo, d, rest)) :
    ∃ a b c e f g k l,
      cs = a :: b :: c :: e :: '-' :: f :: g :: '-' :: k :: l :: rest ∧
      isDigitC a = true ∧ isDigitC b = true ∧ isDigitC c = true ∧
      isDigitC e = true ∧ isDigitC f = true ∧ isDigitC g = true ∧
      isDigitC k = true ∧ isDigitC l = true ∧
      y = ((digitVal a * 10 + digitVal b) * 10 + digitVal c) * 10 + digitVal e ∧
      mo = digitVal f * 10 + digitVal g ∧
      d = digitVal k * 10 + digitVal l := by
  unfold readDatePart at h
  split at h
  · simp at h
  next y1 cs1 h1 =>
  split at h
  · simp at h
  next cs2 h2 =>
  split at h
  · simp at h
  next mo1 cs3 h3 =>
  split at h
  · simp at h
  next cs4 h4 =>
  split at h
  · simp at h
  next d1 cs5 h5 =>
  split at h
  case isFalse => simp at h
  case isTrue =>
  split at h
  case isFalse => simp at h
  case isTrue =>
  simp only [Option.some.injEq, Prod.mk.injEq] at h
  obtain ⟨hy, hmo, hd, hrest⟩ := h
  subst hy hmo hd hrest
  obtain ⟨a, b, c, e, hcs, ha, hb, hc, he, hyv⟩ := readFixed4_some h1
  have hcs2 := readLit_some h2
  obtain ⟨f, g, hcs3, hf, hg, hmov⟩ := readFixed2_some h3
  have hcs4 := readLit_some h4
  obtain ⟨k, l, hcs5, hk, hl, hdv⟩ := readFixed2_some h5
  refine ⟨a, b, c, e, f, g, k, l, ?_, ha, hb, hc, he, hf, hg, hk, hl, hyv, hmov, hdv⟩
  rw [hcs, hcs2, hcs3, hcs4, hcs5]

theorem goParseDate_inv {s : String} {t : GoDateTime}
    (h : goParseDate s = some t) :
    ∃ a b c e f g k l,
      s.data = [a, b, c, e, '-', f, g, '-', k, l] ∧
      isDigitC a = true ∧ isDigitC b = true ∧ isDigitC c = true ∧
      isDigitC e = true ∧ isDigitC f = true ∧ isDigitC g = true ∧
      isDigitC k = true ∧ isDigitC l = true ∧
      t = ⟨((digitVal a * 10 + digitVal b) * 10 + digitVal c) * 10 + digitVal e,
        digitVal f * 10 + digitVal g, digitVal k * 10 + digitVal l, 0, 0, 0⟩ := by
  unfold goParseDate at h
  split at h
  · simp at h
  next y mo d cs1 h1 =>
  split at h
  case isFalse => simp at h
  case isTrue hrest =>
  subst hrest
  simp only [Option.some.injEq] at h
  obtain ⟨a, b, c, e, f, g, k, l, hcs, ha, hb, hc, he, hf, hg1, hk, hl, hyv, hmov,
    hdv⟩ := readDatePart_some h1
  refine ⟨a, b, c, e, f, g, k, l, by rw [hcs], ha, hb, hc, he, hf, hg1, hk, hl, ?_⟩
  rw [← h, hyv, hmov, hdv]

/-- Formatting a successfully parsed plain date reproduces the input
exactly: `2006-01-02` is fixed-width on both sides. -/
theorem formatDate_goParseDate {s : String} {t : GoDateTime}
    (h : goParseDate s = some t) : formatDate t = s := by
  obtain ⟨a, b, c, e, f, g, k, l, hcs, ha, hb, hc, he, hf, hg, hk, hl, ht⟩ :=
    goParseDate_inv h
  apply str_ext
  rw [ht]
  show (String.mk (goPadNat 4 _) ++ "-" ++ String.mk (goPadNat 2 _) ++ "-" ++
    String.mk (goPadNat 2 _)).data = s.data
  rw [hcs]
  simp only [String.data_append]
  rw [goPadNat_four ha hb hc he, goPadNat_two hf hg, goPadNat_two hk hl]
  rfl

/-! ## C2: the clip namer -/

theorem asciiToLowerChar_eq_apo {c : Char} :
    asciiToLowerChar c = apoChar ↔ c = apoChar := by
  unfold asciiToLowerChar
  split
  next hup =>
    constructor
    · intro h
      exfalso
      have h32 : (Char.ofNat (c.toNat + 32)).toNat = c.toNat + 32 := by
        have hc : c.toNat + 32 < 55296 := by
          have := hup.2
          omega
        exact char_toNat_ofNat hc
      have := congrArg Char.toNat h
      rw [h32] at this
      have h39 : apoChar.toNat = 39 := by decide
      rw [h39] at this
      have := hup.1
      omega
    · intro h
      subst h
      exact absurd hup (by decide)
  next => simp

/-- Pointwise: the lowercase-then-underscore step maps a character to an
apostrophe exactly when it is one. -/
theorem sanitizeStep_eq_apo {c : Char} :
    (if asciiToLowerChar c = ' ' then '_' else asciiToLowerChar c) = apoChar ↔
      c = apoChar := by
  split
  next hsp =>
    constructor
    · intro h
      exact absurd h (by decide)
    · intro h
      subst h
      exact absurd hsp (by decide)
  next => exact asciiToLowerChar_eq_apo

/-- Sanitization keeps every apostrophe of the scientific name. -/
theorem sanitizeSciName_count_apo (s : String) :
    (sanitizeSciName s).data.count apoChar = s.data.count apoChar := by
  unfold sanitizeSciName removeChar replaceAllChar asciiToLower
  simp only [List.filter_filter]
  rw [List.count_filter (by decide)]
  rw [List.map_map]
  rw [List.count_eq_countP, List.countP_map, List.count_eq_countP]
  apply List.countP_congr
  intro c _
  simp only [Function.comp_apply, beq_iff_eq]
  exact sanitizeStep_eq_apo

/-- The Go conversion `int(0.95 * 100)` evaluates to 95 (the float product
rounds to exactly 95.0, and the exact rational model agrees). -/
theorem goIntOfRat_con : goIntOfRat ((0.95 : ℚ) * 100) = 95 := by
  unfold goIntOfRat
  norm_num

/-- Evaluation of the clip namer on the spec's example fields, with the
other fields arbitrary. -/
theorem generateClipName_corvus (comName fileName : String)
    (lat lon cutoff sens overlap : ℚ) (week : Int) :
    GenerateClipName
      ⟨"2023-01-15", "13:45:30", "Corvus corax", comName, 0.95, lat, lon,
        cutoff, week, sens, overlap, fileName⟩ =
      "corvus_corax_95p_20230115T134530Z" ++ goExt fileName := by
  have hp : goParseDateTime ("2023-01-15" ++ "T" ++ "13:45:30") =
      some ⟨2023, 1, 15, 13, 45, 30⟩ := by decide
  unfold GenerateClipName
  dsimp only
  rw [hp]
  dsimp only
  rw [goIntOfRat_con]
  exact congrArg (fun x => x ++ goExt fileName) (by decide)

/-- **C2**: `GenerateClipName` parses `Date ++ "T" ++ Time` under
`YYYY-MM-DDTHH:MM:SS`; on success the result is
`<sanitized-scientific-name>_<int(confidence*100)>p_<YYYYMMDDTHHMMSSZ><ext>`
where sanitization lowercases, maps spaces to underscores, strips hyphens
and colons (keeping apostrophes), and `<ext>` is the extension of the
original file name; on parse failure the result is the empty string; and on
the spec's example record the name is `corvus_corax_95p_20230115T134530Z`
plus the original extension. -/
theorem generateClipName_spec (d : Detection) :
    (∀ t, goParseDateTime (d.Date ++ "T" ++ d.Time) = some t →
      GenerateClipName d =
        sanitizeSciName d.SciName ++ "_" ++
          goIntString (goIntOfRat (d.Confidence * 100)) ++ "p_" ++
          formatTimestamp t ++ goExt d.FileName) ∧
    (goParseDateTime (d.Date ++ "T" ++ d.Time) = none → GenerateClipName d = "") ∧
    (∀ s : String, (sanitizeSciName s).data.count apoChar = s.data.count apoChar) ∧
    (∀ comName fileName : String, ∀ lat lon cutoff sens overlap : ℚ, ∀ week : Int,
      GenerateClipName
        ⟨"2023-01-15", "13:45:30", "Corvus corax", comName, 0.95, lat, lon,
          cutoff, week, sens, overlap, fileName⟩ =
        "corvus_corax_95p_20230115T134530Z" ++ goExt fileName) := by
  refine ⟨?_, ?_, sanitizeSciName_count_apo, ?_⟩
  · intro t h
    unfold GenerateClipName
    rw [h]
    apply str_ext
    rw [show ("p_" : String) = "p" ++ "_" from rfl]
    unfold sanitizeSciName
    simp only [String.data_append, List.append_assoc]
  · intro h
    unfold GenerateClipName
    rw [h]
  · exact generateClipName_corvus

/-- Witness for C2 at the spec's example record. -/
theorem generateClipName_spec_witness :
    goParseDateTime (sampleDet.Date ++ "T" ++ sampleDet.Time) =
      some ⟨2023, 1, 15, 13, 45, 30⟩ ∧
    GenerateClipName sampleDet =
      sanitizeSciName sampleDet.SciName ++ "_" ++
        goIntString (goIntOfRat (sampleDet.Confidence * 100)) ++ "p_" ++
        formatTimestamp ⟨2023, 1, 15, 13, 45, 30⟩ ++ goExt sampleDet.FileName ∧
    GenerateClipName sampleDet = "corvus_corax_95p_20230115T134530Z.wav" :=
  ⟨by decide, (generateClipName_spec sampleDet).1 ⟨2023, 1, 15, 13, 45, 30⟩ (by decide),
    ((generateClipName_spec sampleDet).2.2.2 ("Common Raven") ("clip.wav")
      0 0 0 0 0 0)⟩

/-! ## C3: the record converter -/

/-- **C3**: `convertDetectionToNote` rewrites the record's date in place —
RFC3339 first, then plain `YYYY-MM-DD`, keeping the original string when
both fail and still producing a note — and the produced note carries the
normalized date, the clip name computed from the *normalized* record, the
verification status `unverified`, and every other field unchanged. -/
theorem convertDetectionToNote_spec (d : Detection) :
    ((convertDetectionToNote d).2 = normalizeDetectionDate d) ∧
    (∀ t, goParseRFC3339 d.Date = some t →
      (convertDetectionToNote d).2.Date = formatDate t) ∧
    (goParseRFC3339 d.Date = none → ∀ t, goParseDate d.Date = some t →
      (convertDetectionToNote d).2.Date = formatDate t) ∧
    (goParseRFC3339 d.Date = none → goParseDate d.Date = none →
      (convertDetectionToNote d).2.Date = d.Date) ∧
    ((convertDetectionToNote d).2 =
      { d with Date := (convertDetectionToNote d).2.Date }) ∧
    ((convertDetectionToNote d).1 =
      { ID := 0, Date := (convertDetectionToNote d).2.Date, Time := d.Time,
        ScientificName := d.SciName, CommonName := d.ComName,
        Confidence := d.Confidence, Latitude := d.Lat, Longitude := d.Lon,
        Threshold := d.Cutoff, Sensitivity := d.Sens,
        ClipName := GenerateClipName ((convertDetectionToNote d).2),
        Verified := "unverified" }) := by
  have hfields : normalizeDetectionDate d =
      { d with Date := (normalizeDetectionDate d).Date } := by
    unfold normalizeDetectionDate
    split
    next => rfl
    next =>
      split
      next => rfl
      next => rfl
  refine ⟨rfl, ?_, ?_, ?_, hfields, ?_⟩
  · intro t h
    show (normalizeDetectionDate d).Date = formatDate t
    unfold normalizeDetectionDate
    rw [h]
  · intro hR t h
    show (normalizeDetectionDate d).Date = formatDate t
    unfold normalizeDetectionDate
    rw [hR, h]
  · intro hR hD
    show (normalizeDetectionDate d).Date = d.Date
    unfold normalizeDetectionDate
    rw [hR, hD]
  · have hTime : (normalizeDetectionDate d).Time = d.Time := by rw [hfields]
    have hSci : (normalizeDetectionDate d).SciName = d.SciName := by rw [hfields]
    have hCom : (normalizeDetectionDate d).ComName = d.ComName := by rw [hfields]
    have hConf : (normalizeDetectionDate d).Confidence = d.Confidence := by
      rw [hfields]
    have hLat : (normalizeDetectionDate d).Lat = d.Lat := by rw [hfields]
    have hLon : (normalizeDetectionDate d).Lon = d.Lon := by rw [hfields]
    have hCut : (normalizeDetectionDate d).Cutoff = d.Cutoff := by rw [hfields]
    have hSens : (normalizeDetectionDate d).Sens = d.Sens := by rw [hfields]
    show (⟨0, (normalizeDetectionDate d).Date, (normalizeDetectionDate d).Time,
      (normalizeDetectionDate d).SciName, (normalizeDetectionDate d).ComName,
      (normalizeDetectionDate d).Confidence, (normalizeDetectionDate d).Lat,
      (normalizeDetectionDate d).Lon, (normalizeDetectionDate d).Cutoff,
      (normalizeDetectionDate d).Sens,
      GenerateClipName (normalizeDetectionDate d), "unverified"⟩ : Note) = _
    rw [hTime, hSci, hCom, hConf, hLat, hLon, hCut, hSens]
    rfl

/-- Witness for C3 on an RFC3339 date, a plain date, and an unparseable
date. -/
theorem convertDetectionToNote_spec_witness :
    goParseRFC3339 rfcDet.Date = some ⟨2023, 1, 15, 13, 45, 30⟩ ∧
    (convertDetectionToNote rfcDet).2.Date = formatDate ⟨2023, 1, 15, 13, 45, 30⟩ ∧
    goParseRFC3339 sampleDet.Date = none ∧
    goParseDate sampleDet.Date = some ⟨2023, 1, 15, 0, 0, 0⟩ ∧
    (convertDetectionToNote sampleDet).2.Date = formatDate ⟨2023, 1, 15, 0, 0, 0⟩ ∧
    goParseRFC3339 badDateDet.Date = none ∧
    goParseDate badDateDet.Date = none ∧
    (convertDetectionToNote badDateDet).2.Date = badDateDet.Date :=
  ⟨by decide,
    (convertDetectionToNote_spec rfcDet).2.1 ⟨2023, 1, 15, 13, 45, 30⟩ (by decide),
    by decide, by decide,
    (convertDetectionToNote_spec sampleDet).2.2.1 (by decide)
      ⟨2023, 1, 15, 0, 0, 0⟩ (by decide),
    by decide, by decide,
    (convertDetectionToNote_spec badDateDet).2.2.2.1 (by decide) (by decide)⟩

/-! ## C4: round-trip naming -/

/-- **C4 counterexample**: on a record carrying an RFC3339 date the claimed
round trip fails: conversion first normalizes the date, so the stored clip
name is the real name, while `GenerateClipName` on the raw record fails to
parse `<rfc-date>T<time>` and returns the empty string. -/
theorem roundtrip_naming_counterexample :
    (convertDetectionToNote rfcDet).1.ClipName =
      "corvus_corax_95p_20230115T134530Z.wav" ∧
    GenerateClipName rfcDet = "" ∧
    (convertDetectionToNote rfcDet).1.ClipName ≠ GenerateClipName rfcDet := by
  have h1 : normalizeDetectionDate rfcDet = { rfcDet with Date := "2023-01-15" } := by
    unfold normalizeDetectionDate
    rw [show goParseRFC3339 rfcDet.Date = some ⟨2023, 1, 15, 13, 45, 30⟩ from
      by decide]
    rfl
  have h2 : (convertDetectionToNote rfcDet).1.ClipName =
      GenerateClipName (normalizeDetectionDate rfcDet) := rfl
  have h3 : GenerateClipName rfcDet = "" := by
    unfold GenerateClipName
    rw [show goParseDateTime (rfcDet.Date ++ "T" ++ rfcDet.Time) = none from by decide]
  have h4 : (convertDetectionToNote rfcDet).1.ClipName =
      "corvus_corax_95p_20230115T134530Z.wav" := by
    rw [h2, h1]
    exact generateClipName_corvus ("Common Raven") ("clip.wav") 0 0 0 0 0 0
  refine ⟨h4, h3, ?_⟩
  rw [h4, h3]
  decide

/-- **C4 (amended)**: the round trip `clipName(convert(r)) =
GenerateClipName(r)` holds for every record whose date is *not* an RFC3339
timestamp — i.e. for plain `YYYY-MM-DD` dates and for unparseable dates —
but not for RFC3339 dates (see the counterexample). -/
theorem roundtrip_naming_amended (r : Detection)
    (h : goParseRFC3339 r.Date = none) :
    (convertDetectionToNote r).1.ClipName = GenerateClipName r := by
  have h2 : (convertDetectionToNote r).1.ClipName =
      GenerateClipName (normalizeDetectionDate r) := rfl
  rw [h2]
  unfold normalizeDetectionDate
  rw [h]
  show GenerateClipName
    (match goParseDate r.Date with
      | some t => { r with Date := formatDate t }
      | none => r) = GenerateClipName r
  split
  next t hD =>
    rw [formatDate_goParseDate hD]
  next => rfl

/-- Witness for the amended C4 on the spec's plain-date record. -/
theorem roundtrip_naming_amended_witness :
    goParseRFC3339 sampleDet.Date = none ∧
    (convertDetectionToNote sampleDet).1.ClipName = GenerateClipName sampleDet :=
  ⟨by decide, roundtrip_naming_amended sampleDet (by decide)⟩

/-! ## C1: watermark and resume predicate -/

theorem lexLeNote_refl (a : Note) : lexLeNote a a := Or.inr ⟨rfl, le_refl _⟩

theorem lexLeNote_trans {a b c : Note} (h1 : lexLeNote a b) (h2 : lexLeNote b c) :
    lexLeNote a c := by
  rcases h1 with h1 | ⟨h1, h1t⟩ <;> rcases h2 with h2 | ⟨h2, h2t⟩
  · exact Or.inl (lt_trans h1 h2)
  · exact Or.inl (h2 ▸ h1)
  · exact Or.inl (h1 ▸ h2)
  · exact Or.inr ⟨h1.trans h2, le_trans h1t h2t⟩

/-- When `noteAfter n m` fails, `n` is lexicographically at most `m`. -/
theorem lexLeNote_of_not_noteAfter {n m : Note} (h : noteAfter n m = false) :
    lexLeNote n m := by
  unfold noteAfter at h
  simp only [Bool.or_eq_false_iff, Bool.and_eq_false_iff,
    decide_eq_false_iff_not, strLtB_eq_false_iff] at h
  obtain ⟨hlt, heq⟩ := h
  rcases lt_trichotomy n.Date m.Date with hd | hd | hd
  · exact Or.inl hd
  · refine Or.inr ⟨hd, ?_⟩
    rcases heq with h | h
    · exact absurd hd.symm h
    · exact not_lt.mp h
  · exact absurd hd hlt

/-- When `noteAfter n m` holds, `m` is lexicographically at most `n`. -/
theorem lexLeNote_of_noteAfter {n m : Note} (h : noteAfter n m = true) :
    lexLeNote m n := by
  unfold noteAfter at h
  simp only [Bool.or_eq_true, Bool.and_eq_true, decide_eq_true_eq,
    strLtB_iff] at h
  rcases h with h | ⟨h1, h2⟩
  · exact Or.inl h
  · exact Or.inr ⟨h1, le_of_lt h2⟩

/-- Invariant of the `First (ORDER BY date DESC, time DESC)` fold: starting
from a candidate, the result is the candidate or a list member, and it
dominates the candidate and every member. -/
theorem findLast_aux (l : List Note) :
    ∀ acc w : Note,
      l.foldl
        (fun acc n =>
          match acc with
          | none => some n
          | some m => if noteAfter n m then some n else some m)
        (some acc) = some w →
      (w = acc ∨ w ∈ l) ∧ lexLeNote acc w ∧ ∀ m ∈ l, lexLeNote m w := by
  induction l with
  | nil =>
    intro acc w h
    simp only [List.foldl_nil, Option.some.injEq] at h
    subst h
    exact ⟨Or.inl rfl, lexLeNote_refl _, by simp⟩
  | cons n l ih =>
    intro acc w h
    simp only [List.foldl_cons] at h
    by_cases hna : noteAfter n acc = true
    · rw [if_pos hna] at h
      obtain ⟨hmem, hle, hall⟩ := ih n w h
      refine ⟨?_, lexLeNote_trans (lexLeNote_of_noteAfter hna) hle, ?_⟩
      · rcases hmem with rfl | hm
        · exact Or.inr (List.mem_cons_self _ _)
        · exact Or.inr (List.mem_cons_of_mem _ hm)
      · intro m hm
        rcases List.mem_cons.mp hm with rfl | hm
        · exact hle
        · exact hall m hm
    · rw [if_neg hna] at h
      obtain ⟨hmem, hle, hall⟩ := ih acc w h
      refine ⟨?_, hle, ?_⟩
      · rcases hmem with rfl | hm
        · exact Or.inl rfl
        · exact Or.inr (List.mem_cons_of_mem _ hm)
      · intro m hm
        rcases List.mem_cons.mp hm with rfl | hm
        · exact lexLeNote_trans
            (lexLeNote_of_not_noteAfter (Bool.not_eq_true _ ▸ hna)) hle
        · exact hall m hm

/-- The fold never loses a `some` accumulator. -/
theorem findLast_aux_isSome (l : List Note) :
    ∀ acc : Note,
      (l.foldl
        (fun acc n =>
          match acc with
          | none => some n
          | some m => if noteAfter n m then some n else some m)
        (some acc)).isSome = true := by
  induction l with
  | nil => intro acc; rfl
  | cons n l ih =>
    intro acc
    simp only [List.foldl_cons]
    by_cases hna : noteAfter n acc = true
    · rw [if_pos hna]; exact ih n
    · rw [if_neg hna]; exact ih acc

/-- **C1**: with an empty target store the watermark query yields `none`
(and conversely), and the resulting empty clause selects every row; with a
non-empty store the watermark is a stored note of maximal (date, time), the
clause is exactly `date > ? OR (date = ? AND time > ?)` with parameters
(D, D, T), a source row is selected iff its date exceeds D or its date
equals D and its time strictly exceeds T, and the row at exactly (D, T) is
excluded. -/
theorem watermark_resume_spec :
    (∀ notes : List Note, findLastEntryInTargetDB notes = none ↔ notes = []) ∧
    (formulateQuery none = ("", []) ∧
      ∀ d : Detection, evalResumeClause "" [] d = true) ∧
    (∀ (notes : List Note) (w : Note), findLastEntryInTargetDB notes = some w →
      w ∈ notes ∧ (∀ m ∈ notes, lexLeNote m w) ∧
      formulateQuery (some w) = (resumeClause, [w.Date, w.Date, w.Time]) ∧
      (∀ d : Detection,
        evalResumeClause resumeClause [w.Date, w.Date, w.Time] d = true ↔
          (w.Date < d.Date ∨ (d.Date = w.Date ∧ w.Time < d.Time))) ∧
      (∀ d : Detection, d.Date = w.Date → d.Time = w.Time →
        evalResumeClause resumeClause [w.Date, w.Date, w.Time] d = false)) := by
  have hsem : ∀ (w : Note) (d : Detection),
      evalResumeClause resumeClause [w.Date, w.Date, w.Time] d = true ↔
        (w.Date < d.Date ∨ (d.Date = w.Date ∧ w.Time < d.Time)) := by
    intro w d
    unfold evalResumeClause
    rw [if_neg (by decide), if_pos rfl]
    simp only [Bool.or_eq_true, Bool.and_eq_true, decide_eq_true_eq, strLtB_iff]
  refine ⟨?_, ⟨rfl, fun d => rfl⟩, ?_⟩
  · intro notes
    constructor
    · intro h
      cases notes with
      | nil => rfl
      | cons n l =>
        exfalso
        unfold findLastEntryInTargetDB at h
        simp only [List.foldl_cons] at h
        have hs := findLast_aux_isSome l n
        rw [h] at hs
        simp at hs
    · intro h
      subst h
      rfl
  · intro notes w h
    have hmax : w ∈ notes ∧ ∀ m ∈ notes, lexLeNote m w := by
      cases notes with
      | nil => simp [findLastEntryInTargetDB] at h
      | cons n l =>
        unfold findLastEntryInTargetDB at h
        simp only [List.foldl_cons] at h
        obtain ⟨hmem, hle, hall⟩ := findLast_aux l n w h
        refine ⟨?_, ?_⟩
        · rcases hmem with rfl | hm
          · exact List.mem_cons_self _ _
          · exact List.mem_cons_of_mem _ hm
        · intro m hm
          rcases List.mem_cons.mp hm with rfl | hm
          · exact hle
          · exact hall m hm
    refine ⟨hmax.1, hmax.2, rfl, hsem w, ?_⟩
    intro d h1 h2
    rw [Bool.eq_false_iff]
    intro htrue
    rcases (hsem w d).mp htrue with hlt | ⟨_, hlt⟩
    · rw [h1] at hlt
      exact lt_irrefl _ hlt
    · rw [h2] at hlt
      exact lt_irrefl _ hlt

/-- Witness for C1 on a concrete two-note store, a row past the watermark,
and the boundary row at exactly the watermark. -/
theorem watermark_resume_spec_witness :
    findLastEntryInTargetDB [wmNote1, wmNote2] = some wmNote2 ∧
    wmNote2 ∈ [wmNote1, wmNote2] ∧
    (∀ m ∈ [wmNote1, wmNote2], lexLeNote m wmNote2) ∧
    formulateQuery (some wmNote2) =
      (resumeClause, [wmNote2.Date, wmNote2.Date, wmNote2.Time]) ∧
    evalResumeClause resumeClause [wmNote2.Date, wmNote2.Date, wmNote2.Time]
      laterDet = true ∧
    evalResumeClause resumeClause [wmNote2.Date, wmNote2.Date, wmNote2.Time]
      sampleDet = false := by
  have h := watermark_resume_spec.2.2 [wmNote1, wmNote2] wmNote2 (by decide)
  exact ⟨by decide, h.1, h.2.1, h.2.2.1,
    (h.2.2.2.1 laterDet).mpr (Or.inl (strLtB_iff.mp (by decide))),
    h.2.2.2.2 sampleDet (by decide) (by decide)⟩

/-! ## C5–C7: file transfer -/

/-- Evaluation of the transfer body in Copy mode with no faults. -/
theorem transferResolved_copy (d : Detection) (tgtDir sp : String) (fs : FS)
    (data : FileData) (t : GoDateTime)
    (hsrc : fs.files sp = some data)
    (hparse : goParseDateTime (d.Date ++ "T" ++ d.Time) = some t)
    (hmk : fs.mkdirFails (transferTargetSubDir tgtDir t) = false)
    (hwr : fs.writeFails (transferTargetPath d tgtDir t) = false) :
    transferResolved d tgtDir CopyFile sp fs =
      (fsWithFile (fsWithDir fs (transferTargetSubDir tgtDir t))
        (transferTargetPath d tgtDir t) data, .copied) := by
  unfold transferResolved
  rw [hparse]
  simp only [fsMkdirAll, fsReadFile, fsWriteFile, hmk, hwr, Bool.false_eq_true,
    if_false]
  have h1 : (fsWithDir fs (transferTargetSubDir tgtDir t)).files sp = some data :=
    hsrc
  have h2 : (fsWithDir fs (transferTargetSubDir tgtDir t)).writeFails
      (pathJoin [transferTargetSubDir tgtDir t, GenerateClipName d]) = false := hwr
  simp only [h1, h2, Bool.false_eq_true, if_false, if_true, transferTargetPath]

/-- Evaluation of the transfer body in Move mode with no faults, when the
destination differs from the source. -/
theorem transferResolved_move (d : Detection) (tgtDir sp : String) (fs : FS)
    (data : FileData) (t : GoDateTime)
    (hsrc : fs.files sp = some data)
    (hparse : goParseDateTime (d.Date ++ "T" ++ d.Time) = some t)
    (hmk : fs.mkdirFails (transferTargetSubDir tgtDir t) = false)
    (hwr : fs.writeFails (transferTargetPath d tgtDir t) = false)
    (hrm : fs.removeFails sp = false)
    (hne : sp ≠ transferTargetPath d tgtDir t) :
    transferResolved d tgtDir MoveFile sp fs =
      (fsWithout
        (fsWithFile (fsWithDir fs (transferTargetSubDir tgtDir t))
          (transferTargetPath d tgtDir t) data) sp, .moved) := by
  unfold transferResolved
  rw [hparse]
  simp only [fsMkdirAll, hmk, Bool.false_eq_true, if_false]
  rw [if_neg (by decide : ¬ (MoveFile = CopyFile))]
  simp only [if_true]
  have h1 : (fsWithDir fs (transferTargetSubDir tgtDir t)).files sp = some data :=
    hsrc
  have h2 : (fsWithDir fs (transferTargetSubDir tgtDir t)).writeFails
      (pathJoin [transferTargetSubDir tgtDir t, GenerateClipName d]) = false := hwr
  simp only [fsReadFile, fsWriteFile, h1, h2, Bool.false_eq_true, if_false]
  have h3 : fsRemove
      (fsWithFile (fsWithDir fs (transferTargetSubDir tgtDir t))
        (pathJoin [transferTargetSubDir tgtDir t, GenerateClipName d]) data) sp =
      some (fsWithout
        (fsWithFile (fsWithDir fs (transferTargetSubDir tgtDir t))
          (pathJoin [transferTargetSubDir tgtDir t, GenerateClipName d]) data) sp) := by
    unfold fsRemove
    rw [show (fsWithFile (fsWithDir fs (transferTargetSubDir tgtDir t))
        (pathJoin [transferTargetSubDir tgtDir t, GenerateClipName d]) data).removeFails
        sp = false from hrm]
    have h4 : (fsWithFile (fsWithDir fs (transferTargetSubDir tgtDir t))
        (pathJoin [transferTargetSubDir tgtDir t, GenerateClipName d]) data).files
        sp = some data := by
      show (if sp = pathJoin [transferTargetSubDir tgtDir t, GenerateClipName d]
        then some data else fs.files sp) = some data
      rw [if_neg (show ¬ (sp = pathJoin [transferTargetSubDir tgtDir t,
        GenerateClipName d]) from hne)]
      exact hsrc
    rw [h4]
    rfl
  rw [h3]
  simp only [transferTargetPath]

/-- Evaluation of the transfer body in Move mode when the removal of the
source fails: the exit point is still `moved`. -/
theorem transferResolved_move_removeFail (d : Detection) (tgtDir sp : String)
    (fs : FS) (data : FileData) (t : GoDateTime)
    (hsrc : fs.files sp = some data)
    (hparse : goParseDateTime (d.Date ++ "T" ++ d.Time) = some t)
    (hmk : fs.mkdirFails (transferTargetSubDir tgtDir t) = false)
    (hwr : fs.writeFails (transferTargetPath d tgtDir t) = false)
    (hrm : fs.removeFails sp = true) :
    transferResolved d tgtDir MoveFile sp fs =
      (fsWithFile (fsWithDir fs (transferTargetSubDir tgtDir t))
        (transferTargetPath d tgtDir t) data, .moved) := by
  unfold transferResolved
  rw [hparse]
  simp only [fsMkdirAll, hmk, Bool.false_eq_true, if_false]
  rw [if_neg (by decide : ¬ (MoveFile = CopyFile))]
  simp only [if_true]
  have h1 : (fsWithDir fs (transferTargetSubDir tgtDir t)).files sp = some data :=
    hsrc
  have h2 : (fsWithDir fs (transferTargetSubDir tgtDir t)).writeFails
      (pathJoin [transferTargetSubDir tgtDir t, GenerateClipName d]) = false := hwr
  simp only [fsReadFile, fsWriteFile, h1, h2, Bool.false_eq_true, if_false]
  have h3 : fsRemove
      (fsWithFile (fsWithDir fs (transferTargetSubDir tgtDir t))
        (pathJoin [transferTargetSubDir tgtDir t, GenerateClipName d]) data) sp =
      none := by
    unfold fsRemove
    rw [show (fsWithFile (fsWithDir fs (transferTargetSubDir tgtDir t))
        (pathJoin [transferTargetSubDir tgtDir t, GenerateClipName d]) data).removeFails
        sp = true from hrm]
    rfl
  rw [h3]
  simp only [transferTargetPath]

/-- Evaluation of the transfer body in Move mode when the destination write
fails: the source is never removed. -/
theorem transferResolved_move_writeFail (d : Detection) (tgtDir sp : String)
    (fs : FS) (data : FileData) (t : GoDateTime)
    (hsrc : fs.files sp = some data)
    (hparse : goParseDateTime (d.Date ++ "T" ++ d.Time) = some t)
    (hmk : fs.mkdirFails (transferTargetSubDir tgtDir t) = false)
    (hwr : fs.writeFails (transferTargetPath d tgtDir t) = true) :
    transferResolved d tgtDir MoveFile sp fs =
      (fsWithDir fs (transferTargetSubDir tgtDir t), .writeError) := by
  unfold transferResolved
  rw [hparse]
  simp only [fsMkdirAll, hmk, Bool.false_eq_true, if_false]
  rw [if_neg (by decide : ¬ (MoveFile = CopyFile))]
  simp only [if_true]
  have h1 : (fsWithDir fs (transferTargetSubDir tgtDir t)).files sp = some data :=
    hsrc
  have h2 : (fsWithDir fs (transferTargetSubDir tgtDir t)).writeFails
      (pathJoin [transferTargetSubDir tgtDir t, GenerateClipName d]) = true := hwr
  simp only [fsReadFile, fsWriteFile, h1, h2, if_true]

/-- Resolution picks the first candidate when it exists. -/
theorem handleFileTransfer_resolves1 (d : Detection) (srcDir tgtDir : String)
    (op : FileOperationType) (fs : FS)
    (h : fileExists fs (sourceCandidate1 d srcDir) = true) :
    handleFileTransferWithFS d srcDir tgtDir op fs =
      transferResolved d tgtDir op (sourceCandidate1 d srcDir) fs := by
  unfold handleFileTransferWithFS
  simp only [h, if_true]

/-- **C5 counterexample**: a Move whose resolved source path coincides with
the computed destination path (the common name embeds a path separator)
reaches the success exit yet leaves *no* file at all: the destination does
not contain the source's bytes, refuting the claim as stated for Move. -/
theorem transfer_bytes_counterexample :
    (handleFileTransferWithFS collideDet ("root")
        ("root/Extracted/By_Date/2023-01-15") MoveFile collideFS).2 =
      .moved ∧
    ∀ p, (handleFileTransferWithFS collideDet ("root")
        ("root/Extracted/By_Date/2023-01-15") MoveFile collideFS).1.files p =
      none := by
  have hclip : GenerateClipName collideDet =
      "corvus_corax_95p_20230115T134530Z.wav" :=
    (generateClipName_corvus ("2023/01")
      ("corvus_corax_95p_20230115T134530Z.wav") 0 0 0 0 0 0).trans (by decide)
  have hres : handleFileTransferWithFS collideDet ("root")
      ("root/Extracted/By_Date/2023-01-15") MoveFile collideFS =
      (fsWithout (fsWithFile
        (fsWithDir collideFS "root/Extracted/By_Date/2023-01-15/2023/01")
        collidePath [1, 2, 3]) collidePath, .moved) := by
    rw [handleFileTransfer_resolves1 collideDet ("root")
      ("root/Extracted/By_Date/2023-01-15") MoveFile collideFS (by decide)]
    rw [show sourceCandidate1 collideDet ("root") = collidePath from by decide]
    unfold transferResolved
    rw [show goParseDateTime (collideDet.Date ++ "T" ++ collideDet.Time) =
      some ⟨2023, 1, 15, 13, 45, 30⟩ from by decide]
    simp only [hclip]
    rw [show transferTargetSubDir ("root/Extracted/By_Date/2023-01-15")
      ⟨2023, 1, 15, 13, 45, 30⟩ =
      "root/Extracted/By_Date/2023-01-15/2023/01" from by decide]
    rw [show pathJoin ["root/Extracted/By_Date/2023-01-15/2023/01",
      "corvus_corax_95p_20230115T134530Z.wav"] = collidePath from by decide]
    rw [show fsMkdirAll collideFS "root/Extracted/By_Date/2023-01-15/2023/01" =
      some (fsWithDir collideFS "root/Extracted/By_Date/2023-01-15/2023/01")
      from by unfold fsMkdirAll; rw [show collideFS.mkdirFails
        "root/Extracted/By_Date/2023-01-15/2023/01" = false from rfl]; rfl]
    dsimp only
    rw [if_neg (by decide : ¬ (MoveFile = CopyFile))]
    simp only [if_true]
    rw [show fsReadFile
      (fsWithDir collideFS "root/Extracted/By_Date/2023-01-15/2023/01")
      collidePath = some [1, 2, 3] from by decide]
    dsimp only
    rw [show fsWriteFile
      (fsWithDir collideFS "root/Extracted/By_Date/2023-01-15/2023/01")
      collidePath [1, 2, 3] =
      some (fsWithFile
        (fsWithDir collideFS "root/Extracted/By_Date/2023-01-15/2023/01")
        collidePath [1, 2, 3]) from by unfold fsWriteFile; rfl]
    dsimp only
    rw [show fsRemove (fsWithFile
        (fsWithDir collideFS "root/Extracted/By_Date/2023-01-15/2023/01")
        collidePath [1, 2, 3]) collidePath =
      some (fsWithout (fsWithFile
        (fsWithDir collideFS "root/Extracted/By_Date/2023-01-15/2023/01")
        collidePath [1, 2, 3]) collidePath) from by unfold fsRemove; rfl]
  rw [hres]
  refine ⟨rfl, ?_⟩
  intro p
  show (if p = collidePath then none
    else if p = collidePath then some [1, 2, 3]
    else collideFS.files p) = none
  by_cases hp : p = collidePath
  · rw [if_pos hp]
  · rw [if_neg hp, if_neg hp]
    show (if p = collidePath then some [1, 2, 3] else none) = none
    rw [if_neg hp]

/-- **C5 (amended)**: on an existing source file, a fault-free Copy leaves
the source in place and the destination holding exactly the source's bytes,
overwriting any pre-existing destination; a fault-free Move leaves the
destination holding those bytes and deletes the source — provided the
resolved source path and the computed destination path differ (they can
coincide when the common name embeds path separators, in which case the
Move deletes the single file, see the counterexample). -/
theorem transfer_copy_move_amended (d : Detection) (srcDir tgtDir : String)
    (fs : FS) (data : FileData) (t : GoDateTime)
    (hsrc : fs.files (sourceCandidate1 d srcDir) = some data)
    (hparse : goParseDateTime (d.Date ++ "T" ++ d.Time) = some t)
    (hmk : fs.mkdirFails (transferTargetSubDir tgtDir t) = false)
    (hwr : fs.writeFails (transferTargetPath d tgtDir t) = false) :
    ((handleFileTransferWithFS d srcDir tgtDir CopyFile fs).2 = .copied ∧
      (handleFileTransferWithFS d srcDir tgtDir CopyFile fs).1.files
        (sourceCandidate1 d srcDir) = some data ∧
      (handleFileTransferWithFS d srcDir tgtDir CopyFile fs).1.files
        (transferTargetPath d tgtDir t) = some data) ∧
    (fs.removeFails (sourceCandidate1 d srcDir) = false →
      sourceCandidate1 d srcDir ≠ transferTargetPath d tgtDir t →
      (handleFileTransferWithFS d srcDir tgtDir MoveFile fs).2 = .moved ∧
      (handleFileTransferWithFS d srcDir tgtDir MoveFile fs).1.files
        (transferTargetPath d tgtDir t) = some data ∧
      (handleFileTransferWithFS d srcDir tgtDir MoveFile fs).1.files
        (sourceCandidate1 d srcDir) = none) := by
  have hfe : fileExists fs (sourceCandidate1 d srcDir) = true := by
    unfold fileExists
    rw [hsrc]
    rfl
  constructor
  · rw [handleFileTransfer_resolves1 d srcDir tgtDir CopyFile fs hfe]
    rw [transferResolved_copy d tgtDir (sourceCandidate1 d srcDir) fs data t hsrc
      hparse hmk hwr]
    refine ⟨rfl, ?_, ?_⟩
    · show (if sourceCandidate1 d srcDir = transferTargetPath d tgtDir t
        then some data else fs.files (sourceCandidate1 d srcDir)) = some data
      by_cases hp : sourceCandidate1 d srcDir = transferTargetPath d tgtDir t
      · rw [if_pos hp]
      · rw [if_neg hp]
        exact hsrc
    · show (if transferTargetPath d tgtDir t = transferTargetPath d tgtDir t
        then some data else _) = some data
      rw [if_pos rfl]
  · intro hrm hne
    rw [handleFileTransfer_resolves1 d srcDir tgtDir MoveFile fs hfe]
    rw [transferResolved_move d tgtDir (sourceCandidate1 d srcDir) fs data t hsrc
      hparse hmk hwr hrm hne]
    refine ⟨rfl, ?_, ?_⟩
    · show (if transferTargetPath d tgtDir t = sourceCandidate1 d srcDir
        then none
        else (fsWithFile (fsWithDir fs (transferTargetSubDir tgtDir t))
          (transferTargetPath d tgtDir t) data).files
          (transferTargetPath d tgtDir t)) = some data
      rw [if_neg (fun h => hne h.symm)]
      show (if transferTargetPath d tgtDir t = transferTargetPath d tgtDir t
        then some data else _) = some data
      rw [if_pos rfl]
    · show (if sourceCandidate1 d srcDir = sourceCandidate1 d srcDir
        then none else _) = none
      rw [if_pos rfl]

/-- Witness for the amended C5 on a concrete one-file filesystem. -/
theorem transfer_copy_move_amended_witness :
    sampleFS.files (sourceCandidate1 sampleDet ("src")) = some [7, 8, 9] ∧
    ((handleFileTransferWithFS sampleDet ("src") ("dst") CopyFile sampleFS).2 =
        .copied ∧
      (handleFileTransferWithFS sampleDet ("src") ("dst") CopyFile
        sampleFS).1.files (sourceCandidate1 sampleDet ("src")) = some [7, 8, 9] ∧
      (handleFileTransferWithFS sampleDet ("src") ("dst") CopyFile
        sampleFS).1.files
        (transferTargetPath sampleDet ("dst") ⟨2023, 1, 15, 13, 45, 30⟩) =
        some [7, 8, 9]) ∧
    ((handleFileTransferWithFS sampleDet ("src") ("dst") MoveFile sampleFS).2 =
        .moved ∧
      (handleFileTransferWithFS sampleDet ("src") ("dst") MoveFile
        sampleFS).1.files
        (transferTargetPath sampleDet ("dst") ⟨2023, 1, 15, 13, 45, 30⟩) =
        some [7, 8, 9] ∧
      (handleFileTransferWithFS sampleDet ("src") ("dst") MoveFile
        sampleFS).1.files (sourceCandidate1 sampleDet ("src")) = none) := by
  have hclip : GenerateClipName sampleDet =
      "corvus_corax_95p_20230115T134530Z.wav" :=
    (generateClipName_corvus ("Common Raven") ("clip.wav") 0 0 0 0 0 0).trans
      (by decide)
  have hne : sourceCandidate1 sampleDet ("src") ≠
      transferTargetPath sampleDet ("dst") ⟨2023, 1, 15, 13, 45, 30⟩ := by
    unfold transferTargetPath
    rw [hclip]
    intro heq
    exact absurd (hclip ▸ heq) (by decide)
  have h := transfer_copy_move_amended sampleDet ("src") ("dst") sampleFS
    [7, 8, 9] ⟨2023, 1, 15, 13, 45, 30⟩ (by decide) (by decide) rfl rfl
  exact ⟨by decide, h.1, h.2 rfl hne⟩

/-- **C6**: in Move mode the source is deleted only after the destination
write succeeded — a failed write exits at `writeError` with every file
unchanged and the source intact — and a failed deletion is ignored: the
run still reaches the `moved` success exit (no error is signalled — the
function's only report is its log line), the destination keeps the bytes,
and the orphaned source is left in place and not retried. -/
theorem move_failure_semantics (d : Detection) (srcDir tgtDir : String)
    (fs : FS) (data : FileData) (t : GoDateTime)
    (hsrc : fs.files (sourceCandidate1 d srcDir) = some data)
    (hparse : goParseDateTime (d.Date ++ "T" ++ d.Time) = some t)
    (hmk : fs.mkdirFails (transferTargetSubDir tgtDir t) = false) :
    (fs.writeFails (transferTargetPath d tgtDir t) = true →
      (handleFileTransferWithFS d srcDir tgtDir MoveFile fs).2 = .writeError ∧
      ∀ p, (handleFileTransferWithFS d srcDir tgtDir MoveFile fs).1.files p =
        fs.files p) ∧
    (fs.writeFails (transferTargetPath d tgtDir t) = false →
      fs.removeFails (sourceCandidate1 d srcDir) = true →
      (handleFileTransferWithFS d srcDir tgtDir MoveFile fs).2 = .moved ∧
      (handleFileTransferWithFS d srcDir tgtDir MoveFile fs).1.files
        (transferTargetPath d tgtDir t) = some data ∧
      (handleFileTransferWithFS d srcDir tgtDir MoveFile fs).1.files
        (sourceCandidate1 d srcDir) = some data) := by
  have hfe : fileExists fs (sourceCandidate1 d srcDir) = true := by
    unfold fileExists
    rw [hsrc]
    rfl
  constructor
  · intro hwr
    rw [handleFileTransfer_resolves1 d srcDir tgtDir MoveFile fs hfe]
    rw [transferResolved_move_writeFail d tgtDir (sourceCandidate1 d srcDir) fs
      data t hsrc hparse hmk hwr]
    exact ⟨rfl, fun p => rfl⟩
  · intro hwr hrm
    rw [handleFileTransfer_resolves1 d srcDir tgtDir MoveFile fs hfe]
    rw [transferResolved_move_removeFail d tgtDir (sourceCandidate1 d srcDir) fs
      data t hsrc hparse hmk hwr hrm]
    refine ⟨rfl, ?_, ?_⟩
    · show (if transferTargetPath d tgtDir t = transferTargetPath d tgtDir t
        then some data else _) = some data
      rw [if_pos rfl]
    · show (if sourceCandidate1 d srcDir = transferTargetPath d tgtDir t
        then some data else fs.files (sourceCandidate1 d srcDir)) = some data
      by_cases hp : sourceCandidate1 d srcDir = transferTargetPath d tgtDir t
      · rw [if_pos hp]
      · rw [if_neg hp]
        exact hsrc

/-- Witness for C6: a faulted write leaves everything untouched; a faulted
removal still reports a completed move with both files present. -/
theorem move_failure_semantics_witness :
    ((handleFileTransferWithFS sampleDet ("src") ("dst") MoveFile
        sampleFSWriteFail).2 = .writeError ∧
      ∀ p, (handleFileTransferWithFS sampleDet ("src") ("dst") MoveFile
        sampleFSWriteFail).1.files p = sampleFSWriteFail.files p) ∧
    ((handleFileTransferWithFS sampleDet ("src") ("dst") MoveFile
        sampleFSRemoveFail).2 = .moved ∧
      (handleFileTransferWithFS sampleDet ("src") ("dst") MoveFile
        sampleFSRemoveFail).1.files
        (transferTargetPath sampleDet ("dst") ⟨2023, 1, 15, 13, 45, 30⟩) =
        some [7, 8, 9] ∧
      (handleFileTransferWithFS sampleDet ("src") ("dst") MoveFile
        sampleFSRemoveFail).1.files (sourceCandidate1 sampleDet ("src")) =
        some [7, 8, 9]) := by
  have h1 := move_failure_semantics sampleDet ("src") ("dst") sampleFSWriteFail
    [7, 8, 9] ⟨2023, 1, 15, 13, 45, 30⟩ (by decide) (by decide) rfl
  have h2 := move_failure_semantics sampleDet ("src") ("dst") sampleFSRemoveFail
    [7, 8, 9] ⟨2023, 1, 15, 13, 45, 30⟩ (by decide) (by decide) rfl
  exact ⟨h1.1 rfl, h2.2 rfl (by decide)⟩

/-- **C7**: the artifact path is resolved by first trying the verbatim
common name, then the common name with spaces replaced by underscores and
apostrophes removed; when neither candidate exists the function returns
with the filesystem completely unchanged (no destination file or
directory is created) and the non-fatal `sourceNotFound` exit. -/
theorem path_resolution_spec (d : Detection) (srcDir tgtDir : String)
    (op : FileOperationType) (fs : FS) :
    (sourceCandidate1 d srcDir =
      pathJoin [srcDir, "Extracted", "By_Date", d.Date, d.ComName, d.FileName]) ∧
    (sourceCandidate2 d srcDir =
      pathJoin [srcDir, "Extracted", "By_Date", d.Date,
        removeChar (replaceAllChar d.ComName ' ' '_') apoChar, d.FileName]) ∧
    (fileExists fs (sourceCandidate1 d srcDir) = true →
      handleFileTransferWithFS d srcDir tgtDir op fs =
        transferResolved d tgtDir op (sourceCandidate1 d srcDir) fs) ∧
    (fileExists fs (sourceCandidate1 d srcDir) = false →
      fileExists fs (sourceCandidate2 d srcDir) = true →
      handleFileTransferWithFS d srcDir tgtDir op fs =
        transferResolved d tgtDir op (sourceCandidate2 d srcDir) fs) ∧
    (fileExists fs (sourceCandidate1 d srcDir) = false →
      fileExists fs (sourceCandidate2 d srcDir) = false →
      handleFileTransferWithFS d srcDir tgtDir op fs = (fs, .sourceNotFound)) := by
  refine ⟨rfl, rfl, handleFileTransfer_resolves1 d srcDir tgtDir op fs, ?_, ?_⟩
  · intro h1 h2
    unfold handleFileTransferWithFS
    simp only [h1, h2, Bool.false_eq_true, if_false, if_true]
  · intro h1 h2
    unfold handleFileTransferWithFS
    simp only [h1, h2, Bool.false_eq_true, if_false]

/-- Witness for C7: on an empty filesystem nothing happens; with only the
transformed-name path present the fallback is used; the transformation
replaces spaces with underscores and strips the apostrophe. -/
theorem path_resolution_spec_witness :
    comNameFormatted apoComDet = "Coopers_Hawk" ∧
    handleFileTransferWithFS sampleDet ("src") ("dst") CopyFile emptyFS =
      (emptyFS, .sourceNotFound) ∧
    handleFileTransferWithFS sampleDet ("src") ("dst") CopyFile underscoreFS =
      transferResolved sampleDet ("dst") CopyFile
        (sourceCandidate2 sampleDet ("src")) underscoreFS :=
  ⟨by decide,
    (path_resolution_spec sampleDet ("src") ("dst") CopyFile emptyFS).2.2.2.2
      (by decide) (by decide),
    (path_resolution_spec sampleDet ("src") ("dst") CopyFile
      underscoreFS).2.2.2.1 (by decide) (by decide)⟩

/-! ## C8–C9: the merge driver -/

/-- **C8**: `MergeDatabases` rejects identical source and target paths, and
rejects a missing source database file with a descriptive error; both
rejections return the world completely unchanged — no store has been
opened, no record read or copied. -/
theorem mergeDatabases_rejects (w : World) (srcPath tgtPath : String) :
    (srcPath = tgtPath →
      MergeDatabases srcPath tgtPath w =
        (w, some ("source and target database paths cannot be the same"))) ∧
    (srcPath ≠ tgtPath → w.dbFileExists srcPath = false →
      MergeDatabases srcPath tgtPath w =
        (w, some ("source database file does not exist: " ++ srcPath))) := by
  constructor
  · intro h
    unfold MergeDatabases
    rw [if_pos h]
  · intro h1 h2
    unfold MergeDatabases
    rw [if_neg h1]
    rw [if_pos (show ¬ (w.dbFileExists srcPath = true) from by
      rw [h2]; exact fun h => absurd h (by decide))]

/-- Witness for C8 at a concrete world. -/
theorem mergeDatabases_rejects_witness :
    MergeDatabases ("src.db") ("src.db") mergeWorld =
      (mergeWorld, some ("source and target database paths cannot be the same")) ∧
    MergeDatabases ("missing.db") ("tgt.db") mergeWorld =
      (mergeWorld,
        some ("source database file does not exist: " ++ "missing.db")) :=
  ⟨(mergeDatabases_rejects mergeWorld ("src.db") ("src.db")).1 rfl,
    (mergeDatabases_rejects mergeWorld ("missing.db") ("tgt.db")).2
      (by decide) (by decide)⟩

/-- **C9**: every merge invocation that passes the path checks opens the
source store through `initializeAndMigrateTargetDB` — the same
initialization used for the target, with its write PRAGMAs and
`AutoMigrate` — so the final world holds the *migrated* source store: its
`notes` table now exists even if it did not before. The source database is
written to, never treated as read-only. -/
theorem merge_writes_source (w : World) (srcPath tgtPath : String)
    (h1 : ¬ (srcPath = tgtPath)) (h2 : w.dbFileExists srcPath = true) :
    (MergeDatabases srcPath tgtPath w).1.dbs srcPath =
      initializeAndMigrateTargetDB (w.dbs srcPath) ∧
    ((MergeDatabases srcPath tgtPath w).1.dbs srcPath).hasNotesTable = true := by
  have hmain : (MergeDatabases srcPath tgtPath w).1.dbs srcPath =
      initializeAndMigrateTargetDB (w.dbs srcPath) := by
    unfold MergeDatabases
    rw [if_neg h1]
    rw [if_neg (show ¬ ¬ (w.dbFileExists srcPath = true) from by
      rw [h2]; exact fun h => h rfl)]
    dsimp only
    split
    · show updateDB (updateDB w.dbs srcPath
        (initializeAndMigrateTargetDB (w.dbs srcPath))) tgtPath _ srcPath = _
      unfold updateDB
      rw [if_neg h1, if_pos rfl]
    · split
      · show updateDB (updateDB w.dbs srcPath
          (initializeAndMigrateTargetDB (w.dbs srcPath))) tgtPath _ srcPath = _
        unfold updateDB
        rw [if_neg h1, if_pos rfl]
      · show updateDB (updateDB w.dbs srcPath
          (initializeAndMigrateTargetDB (w.dbs srcPath))) tgtPath _ srcPath = _
        unfold updateDB
        rw [if_neg h1, if_pos rfl]
  exact ⟨hmain, by rw [hmain]; rfl⟩

/-- Witness for C9: the source store of `mergeWorld` has no `notes` table
before the merge and has one after it. -/
theorem merge_writes_source_witness :
    (mergeWorld.dbs ("src.db")).hasNotesTable = false ∧
    ((MergeDatabases ("src.db") ("tgt.db") mergeWorld).1.dbs
      ("src.db")).hasNotesTable = true :=
  ⟨by decide,
    (merge_writes_source mergeWorld ("src.db") ("tgt.db") (by decide)
      (by decide)).2⟩

/-! ## C10: counting failure is silent -/

/-- **C10**: a failed count query makes `getTotalRecordCount` return 0
instead of an error; `convertAndTransferData` then runs zero batch
iterations — the target store's notes and the filesystem are untouched, the
only other store touched is the auto-migrated target — and the run still
prints the completion message, exactly as it would for an empty source. -/
theorem count_failure_silent (w : World)
    (srcPath tgtPath srcDir tgtDir : String) (op : FileOperationType)
    (skip : Bool)
    (h1 : w.dbFileExists srcPath = true)
    (h2 : (w.dbs srcPath).hasDetectionsTable = true)
    (h3 : (w.dbs srcPath).countFails = true) :
    (∀ (db : DBState) (wc : String) (ps : List String), db.countFails = true →
      getTotalRecordCount db wc ps = 0) ∧
    (convertAndTransferData srcPath tgtPath srcDir tgtDir op skip w).2 =
      ["Total records to process: 0",
        "Data conversion and file transfer completed successfully."] ∧
    ((convertAndTransferData srcPath tgtPath srcDir tgtDir op skip w).1.dbs
      tgtPath).notes = (w.dbs tgtPath).notes ∧
    (convertAndTransferData srcPath tgtPath srcDir tgtDir op skip w).1.fs =
      w.fs ∧
    (∀ q, ¬ (q = tgtPath) →
      (convertAndTransferData srcPath tgtPath srcDir tgtDir op skip w).1.dbs q =
        w.dbs q) := by
  have hcount : ∀ (db : DBState) (wc : String) (ps : List String),
      db.countFails = true → getTotalRecordCount db wc ps = 0 := by
    intro db wc ps h
    unfold getTotalRecordCount
    rw [h]
    rfl
  have hrun : convertAndTransferData srcPath tgtPath srcDir tgtDir op skip w =
      ({ w with
          dbs := updateDB w.dbs tgtPath (initializeAndMigrateTargetDB (w.dbs tgtPath)),
          fs := w.fs },
        ["Total records to process: 0",
          "Data conversion and file transfer completed successfully."]) := by
    unfold convertAndTransferData
    rw [if_neg (show ¬ ¬ (w.dbFileExists srcPath = true) from by
      rw [h1]; exact fun h => h rfl)]
    rw [if_neg (show ¬ ¬ ((w.dbs srcPath).hasDetectionsTable = true) from by
      rw [h2]; exact fun h => h rfl)]
    dsimp only
    rw [hcount (w.dbs srcPath) _ _ h3]
    rw [show processRecordsInBatches (w.dbs srcPath)
      (initializeAndMigrateTargetDB (w.dbs tgtPath)) 0 srcDir tgtDir op skip
      (formulateQuery (findLastEntryInTargetDB
        (initializeAndMigrateTargetDB (w.dbs tgtPath)).notes)).1
      (formulateQuery (findLastEntryInTargetDB
        (initializeAndMigrateTargetDB (w.dbs tgtPath)).notes)).2 w.fs =
      (initializeAndMigrateTargetDB (w.dbs tgtPath), w.fs, []) from rfl]
    rfl
  refine ⟨hcount, ?_, ?_, ?_, ?_⟩
  · rw [hrun]
  · rw [hrun]
    show ((updateDB w.dbs tgtPath (initializeAndMigrateTargetDB (w.dbs tgtPath)))
      tgtPath).notes = (w.dbs tgtPath).notes
    unfold updateDB
    rw [if_pos rfl]
    rfl
  · rw [hrun]
  · intro q hq
    rw [hrun]
    show (updateDB w.dbs tgtPath (initializeAndMigrateTargetDB (w.dbs tgtPath)))
      q = w.dbs q
    unfold updateDB
    rw [if_neg hq]

/-- Witness for C10 on `mergeWorld`, whose source store has a faulted count
query and a non-empty detections table. -/
theorem count_failure_silent_witness :
    getTotalRecordCount faultyCountDB ("") [] = 0 ∧
    (convertAndTransferData ("src.db") ("tgt.db") ("srcdir") ("tgtdir")
      CopyFile false mergeWorld).2 =
      ["Total records to process: 0",
        "Data conversion and file transfer completed successfully."] ∧
    ((convertAndTransferData ("src.db") ("tgt.db") ("srcdir") ("tgtdir")
      CopyFile false mergeWorld).1.dbs ("tgt.db")).notes = [] := by
  have h := count_failure_silent mergeWorld ("src.db") ("tgt.db") ("srcdir")
    ("tgtdir") CopyFile false (by decide) (by decide) (by decide)
  refine ⟨h.1 faultyCountDB ("") [] (by decide), h.2.1, ?_⟩
  rw [h.2.2.1]
  decide

end Pi2Go